import Mathlib

/-!
Verification of the BigQuery client library (`bq/bigquery_client.py`).

This file gives a shallow embedding of the parts of the library that the
specification's claims are about: the identifier resolver
(`_ParseIdentifier`, `GetReference` and its typed variants), the reference
model (`ApiClientHelper.Reference` and its four variants), the error
classifier (`BigqueryError.Create`), the job wait loop (`WaitJob`), the
source-list parser (`ProcessSources`) and the job configuration builders
(`_ApplyParameters`, `Query`, `Load`, `Extract`, `CopyTable`).

Python strings are modelled as lists of characters (`Str`); the ambient
`BigqueryClient` object is modelled by its `project_id` / `dataset_id`
fields (`Client`); raised exceptions become `Option` / `Except` results.
-/

set_option autoImplicit false

/-- Python strings, modelled as lists of characters. -/
abbrev Str := List Char

/-- The single-quote character, used by `Reference.__repr__`. -/
def squote : Char := Char.ofNat 39

/-- ASCII word character: Python `re` class `\w` for a byte string without
`re.UNICODE`, i.e. `[a-zA-Z0-9_]`. -/
def isW (c : Char) : Bool :=
  ('a' ≤ c && c ≤ 'z') || ('A' ≤ c && c ≤ 'Z') || ('0' ≤ c && c ≤ '9') || c == '_'

/-- The character class `[\w.]`. -/
def isWdot (c : Char) : Bool := isW c || c == '.'

/-- The character class `[\w\d_-]` (which is `\w` plus the literal dash). -/
def isWdash (c : Char) : Bool := isW c || c == '-'

/-- Split a string at the first occurrence of `c`: `some (before, after)`
when `c` occurs, `none` otherwise.  This underlies the embeddings of
Python's `str.partition` and `str.rpartition`. -/
def splitFirst (c : Char) : Str → Option (Str × Str)
  | [] => none
  | x :: rest =>
    if x = c then some ([], rest)
    else (splitFirst c rest).map (fun p => (x :: p.1, p.2))

/-- Python `s.partition(c)` restricted to the two parts the client reads:
`(before, after)` at the first occurrence of `c`, and `(s, '')` when `c`
does not occur. -/
def pyPartition (c : Char) (s : Str) : Str × Str :=
  match splitFirst c s with
  | some p => p
  | none => (s, [])

/-- Python `s.rpartition(c)` restricted to the two parts the client reads:
`(before, after)` at the last occurrence of `c`, and `('', s)` when `c`
does not occur. -/
def pyRPartition (c : Char) (s : Str) : Str × Str :=
  match splitFirst c s.reverse with
  | some p => (p.2.reverse, p.1.reverse)
  | none => ([], s)

/-- Matcher for the regex piece `\w[\w.]*\.[\w.]+`: a nonempty string of
`[\w.]` characters whose first character is a `\w` and which has a dot in
an interior position (some character strictly after it, and not the first
character). -/
def matchDomainPart (A : Str) : Bool :=
  match A with
  | [] => false
  | c :: rest => isW c && rest.all isWdot && decide ('.' ∈ rest.dropLast)

/-- Matcher for the regex piece `\w[\w\d_-]*`. -/
def matchLocalPart (B : Str) : Bool :=
  match B with
  | [] => false
  | c :: rest => isW c && rest.all isWdash

/-- Executable matcher for the anchored regex
`^\w[\w.]*\.[\w.]+:\w[\w\d_-]*:?$` used by `_ParseIdentifier` for
domain-scoped project identifiers.  Neither character class contains a
colon, so the mandatory colon of a match is the first colon of the
string, and the optional final colon is a trailing extra colon;
`domainMatch` implements the regex through that decomposition (its
faithfulness to the concatenation structure of the regex is proved
against `DomainScoped` below). -/
def domainMatch (s : Str) : Bool :=
  match splitFirst ':' s with
  | none => false
  | some (A, rest) =>
    matchDomainPart A &&
      (matchLocalPart rest ||
        (rest.getLast? == some ':' && matchLocalPart rest.dropLast))

/-- The regex piece `\w[\w.]*\.[\w.]+` as a decomposition property (first
a `\w` character, then `[\w.]*`, then a literal dot, then a nonempty
`[\w.]+`). -/
def DomainPart (A : Str) : Prop :=
  ∃ c m p, A = c :: m ++ '.' :: p ∧ isW c = true ∧
    (∀ x ∈ m, isWdot x = true) ∧ p ≠ [] ∧ (∀ x ∈ p, isWdot x = true)

/-- The regex piece `\w[\w\d_-]*` as a decomposition property. -/
def LocalPart (B : Str) : Prop :=
  ∃ c r, B = c :: r ∧ isW c = true ∧ (∀ x ∈ r, isWdash x = true)

/-- The full anchored regex `^\w[\w.]*\.[\w.]+:\w[\w\d_-]*:?$` as its
concatenation structure: a domain part, a colon, a local part, and an
optional trailing colon. -/
def DomainScoped (s : Str) : Prop :=
  ∃ A B, (s = A ++ ':' :: B ∨ s = A ++ ':' :: B ++ [':']) ∧
    DomainPart A ∧ LocalPart B

namespace BigqueryClient

/-- `BigqueryClient._ParseIdentifier`: parse an identifier into a triple
`(project_id, dataset_id, table_id)` of possibly empty parts, with the
special case for a lone domain-scoped project identifier. -/
def _ParseIdentifier (identifier : Str) : Str × Str × Str :=
  if domainMatch identifier then (identifier, [], [])
  else
    let pr := pyRPartition ':' identifier
    if pr.1 ≠ [] then
      let dt := pyPartition '.' pr.2
      (pr.1, dt.1, dt.2)
    else
      let dt := pyRPartition '.' pr.2
      (pr.1, dt.1, dt.2)

end BigqueryClient

/-- Splitting a string at the last occurrence of `c`, written as the
specification describes it (scan for the last occurrence); `('', s)` when
`c` does not occur.  Compared against `pyRPartition` in claim C1. -/
def splitAtLast (c : Char) : Str → Str × Str
  | [] => ([], [])
  | x :: rest =>
    if c ∈ rest then
      let p := splitAtLast c rest
      (x :: p.1, p.2)
    else if x = c then ([], rest)
    else ([], x :: rest)

/-- Splitting a string at the first occurrence of `c`, written as the
specification describes it; `(s, '')` when `c` does not occur.  Compared
against `pyPartition` in claim C1. -/
def splitAtFirst (c : Char) : Str → Str × Str
  | [] => ([], [])
  | x :: rest =>
    if x = c then ([], rest)
    else if c ∈ rest then
      let p := splitAtFirst c rest
      (x :: p.1, p.2)
    else (x :: rest, [])

/-- The identifier-parsing algorithm exactly as the specification words
it: the domain-scoped special case returns the whole string as the
project part; otherwise split at the last colon, and split the remainder
at its first dot when the project part is nonempty, at its last dot when
it is empty. -/
def parseIdentifierSpec (identifier : Str) : Str × Str × Str :=
  if domainMatch identifier then (identifier, [], [])
  else
    let pr := splitAtLast ':' identifier
    if pr.1 ≠ [] then
      let dt := splitAtFirst '.' pr.2
      (pr.1, dt.1, dt.2)
    else
      let dt := splitAtLast '.' pr.2
      (pr.1, dt.1, dt.2)

/-! ## The reference model (`ApiClientHelper`) -/

/-- The four reference variants of `ApiClientHelper`, as a tagged union.
Fields are the required fields of each Python class. -/
inductive Reference
  | project (projectId : Str)
  | dataset (projectId datasetId : Str)
  | table (projectId datasetId tableId : Str)
  | job (projectId jobId : Str)
deriving DecidableEq

/-- Names of the fields a reference may carry. -/
inductive FieldName
  | projectId | datasetId | tableId | jobId
deriving DecidableEq

/-- The `_required_fields` of each reference variant (in the rendering
order of the format strings). -/
def requiredFields : Reference → List FieldName
  | .project _ => [.projectId]
  | .dataset _ _ => [.projectId, .datasetId]
  | .table _ _ _ => [.projectId, .datasetId, .tableId]
  | .job _ _ => [.projectId, .jobId]

/-- `getattr(reference, name)` for a required field name (returns `''`
for a field the variant does not carry; only called on required ones). -/
def getField : Reference → FieldName → Str
  | .project p, .projectId => p
  | .dataset p _, .projectId => p
  | .dataset _ d, .datasetId => d
  | .table p _ _, .projectId => p
  | .table _ d _, .datasetId => d
  | .table _ _ t, .tableId => t
  | .job p _, .projectId => p
  | .job _ j, .jobId => j
  | _, _ => []

/-- `dict(reference).get(name)`: the field map built by
`Reference.__iter__`, consulted with a default by `__eq__`. -/
def refDictGet (r : Reference) (f : FieldName) : Option Str :=
  if f ∈ requiredFields r then some (getField r f) else none

/-- `Reference.__eq__`: compare every required field of the left operand
against the right operand's field dictionary, with `''` as the default
for a missing key. -/
def refEq (a b : Reference) : Bool :=
  (requiredFields a).all fun f => getField a f == (refDictGet b f).getD []

/-- The variant tag of a reference (its Python class). -/
inductive Variant
  | project | dataset | table | job
deriving DecidableEq

/-- Which Python reference class a value belongs to. -/
def variantOf : Reference → Variant
  | .project _ => .project
  | .dataset _ _ => .dataset
  | .table _ _ _ => .table
  | .job _ _ => .job

/-- `typename` of each reference class. -/
def typename : Reference → Str
  | .project _ => "project".toList
  | .dataset _ _ => "dataset".toList
  | .table _ _ _ => "table".toList
  | .job _ _ => "job".toList

/-- `Reference.__str__`: render through the `_format_str` of the class
(`project`, `project:dataset`, `project:dataset.table`, `project:job`). -/
def refStr : Reference → Str
  | .project p => p
  | .dataset p d => p ++ ':' :: d
  | .table p d t => p ++ ':' :: d ++ '.' :: t
  | .job p j => p ++ ':' :: j

/-- `Reference.__repr__`: `"%s '%s'" % (typename, str(self))`. -/
def pyRepr (r : Reference) : Str :=
  typename r ++ ' ' :: squote :: refStr r ++ [squote]

/-- `ProjectReference.Create`: fails (raises `ValueError`) when the
required field is empty. -/
def ProjectReference.Create (projectId : Str) : Option Reference :=
  if projectId = [] then none else some (.project projectId)

/-- `DatasetReference.Create`. -/
def DatasetReference.Create (projectId datasetId : Str) : Option Reference :=
  if projectId = [] ∨ datasetId = [] then none
  else some (.dataset projectId datasetId)

/-- `TableReference.Create`. -/
def TableReference.Create (projectId datasetId tableId : Str) : Option Reference :=
  if projectId = [] ∨ datasetId = [] ∨ tableId = [] then none
  else some (.table projectId datasetId tableId)

/-- `JobReference.Create`. -/
def JobReference.Create (projectId jobId : Str) : Option Reference :=
  if projectId = [] ∨ jobId = [] then none else some (.job projectId jobId)

/-! ## The client and the identifier resolvers -/

/-- The ambient resolution context of a `BigqueryClient`: its default
`project_id` and `dataset_id` flags (both default to `''`). -/
structure Client where
  project_id : Str
  dataset_id : Str
deriving DecidableEq

/-- Python truthiness choice `a or b` for strings. -/
def pyOr (a b : Str) : Str := if a ≠ [] then a else b

namespace BigqueryClient

/-- `GetProjectReference`: reinterpret a bare identifier (which parses
into the table slot) as a project id, falling back to the ambient
default; fail when a dataset part is present or no project id can be
determined. -/
def GetProjectReference (cl : Client) (identifier : Str) : Option Reference :=
  let t := _ParseIdentifier identifier
  let pid := pyOr t.1 (pyOr t.2.2 cl.project_id)
  if t.2.1 = [] then ProjectReference.Create pid else none

/-- `GetDatasetReference`: accepts the shapes `foo` (ambient project),
`foo:bar`, and the empty identifier (ambient project and dataset). -/
def GetDatasetReference (cl : Client) (identifier : Str) : Option Reference :=
  let t := _ParseIdentifier identifier
  if t.2.2 ≠ [] ∧ t.1 = [] ∧ t.2.1 = [] then
    DatasetReference.Create cl.project_id t.2.2
  else if t.1 ≠ [] ∧ t.2.1 ≠ [] ∧ t.2.2 = [] then
    DatasetReference.Create t.1 t.2.1
  else if identifier = [] then
    DatasetReference.Create cl.project_id cl.dataset_id
  else none

/-- `GetTableReference`: always attempt construction, substituting the
ambient project/dataset for missing parts. -/
def GetTableReference (cl : Client) (identifier : Str) : Option Reference :=
  let t := _ParseIdentifier identifier
  TableReference.Create (pyOr t.1 cl.project_id) (pyOr t.2.1 cl.dataset_id) t.2.2

/-- `GetJobReference`: `foo` (ambient project) or `foo:bar`. -/
def GetJobReference (cl : Client) (identifier : Str) : Option Reference :=
  let t := _ParseIdentifier identifier
  if t.2.2 ≠ [] ∧ t.1 = [] ∧ t.2.1 = [] then
    JobReference.Create cl.project_id t.2.2
  else if t.1 ≠ [] ∧ t.2.1 ≠ [] ∧ t.2.2 = [] then
    JobReference.Create t.1 t.2.1
  else none

/-- `GetReference`: try Table, then Dataset, then Project resolution,
returning the first success (`try`/`except BigqueryError` chain). -/
def GetReference (cl : Client) (identifier : Str) : Option Reference :=
  match GetTableReference cl identifier with
  | some r => some r
  | none =>
    match GetDatasetReference cl identifier with
    | some r => some r
    | none => GetProjectReference cl identifier

end BigqueryClient

/-! ## The error classifier (`BigqueryError.Create`) -/

/-- A server error object, as the classifier reads it: a dictionary with
optional `reason` and `message` keys. -/
structure PyErr where
  reason : Option Str
  message : Option Str
deriving DecidableEq

/-- The Bigquery error taxonomy: one constructor per exception class the
client can produce.  `genericError` stands for the base `BigqueryError`
class raised directly (as the resolvers do).  The Python class hierarchy
(`TermsOfServiceError <: AccessDeniedError <: ServiceError`,
`ConfigurationError`/`SchemaError <: ClientError`) is recovered by the
`...Class` predicates below. -/
inductive BigqueryError
  | genericError (message : Str)
  | communicationError (message : Str)
  | interfaceError (message : Str)
  | serviceError (message : Str) (error : PyErr) (errorList : List PyErr)
      (jobRef : Option Reference)
  | notFoundError (message : Str) (error : PyErr) (errorList : List PyErr)
      (jobRef : Option Reference)
  | duplicateError (message : Str) (error : PyErr) (errorList : List PyErr)
      (jobRef : Option Reference)
  | accessDeniedError (message : Str) (error : PyErr) (errorList : List PyErr)
      (jobRef : Option Reference)
  | invalidQueryError (message : Str) (error : PyErr) (errorList : List PyErr)
      (jobRef : Option Reference)
  | termsOfServiceError (message : Str) (error : PyErr) (errorList : List PyErr)
      (jobRef : Option Reference)
  | clientError (message : Str)
  | clientConfigurationError (message : Str)
  | schemaError (message : Str)
deriving DecidableEq

/-- The human message carried by an error. -/
def msgOf : BigqueryError → Str
  | .genericError m => m
  | .communicationError m => m
  | .interfaceError m => m
  | .serviceError m _ _ _ => m
  | .notFoundError m _ _ _ => m
  | .duplicateError m _ _ _ => m
  | .accessDeniedError m _ _ _ => m
  | .invalidQueryError m _ _ _ => m
  | .termsOfServiceError m _ _ _ => m
  | .clientError m => m
  | .clientConfigurationError m => m
  | .schemaError m => m

/-- Membership in the `BigqueryInterfaceError` class. -/
def isInterfaceError : BigqueryError → Bool
  | .interfaceError _ => true
  | _ => false

/-- Membership in the `BigqueryAccessDeniedError` class, Python
`isinstance` semantics: `BigqueryTermsOfServiceError` is a subclass of
`BigqueryAccessDeniedError`. -/
def isAccessDeniedClass : BigqueryError → Bool
  | .accessDeniedError _ _ _ _ => true
  | .termsOfServiceError _ _ _ _ => true
  | _ => false

/-- Membership in the `BigqueryClientConfigurationError` class. -/
def isClientConfigurationError : BigqueryError → Bool
  | .clientConfigurationError _ => true
  | _ => false

/-- Membership in the `BigqueryClientError` class (Python `isinstance`
semantics: its subclasses `BigqueryClientConfigurationError` and
`BigquerySchemaError` are included). -/
def isClientErrorClass : BigqueryError → Bool
  | .clientError _ => true
  | .clientConfigurationError _ => true
  | .schemaError _ => true
  | _ => false

/-- Python `'%s' % v` for an optional string: `None` prints as `"None"`. -/
def pyFormatS (v : Option Str) : Str :=
  match v with
  | none => "None".toList
  | some s => s

/-- Python truthiness of an optional string: `None` and `''` are falsy. -/
def optFalsy (v : Option Str) : Bool := (v.getD []).isEmpty

/-- The message the classifier starts from: the primary message, prefixed
with `'Error processing %r: '` when a job reference is supplied. -/
def baseMessage (error : PyErr) (jobRef : Option Reference) : Option Str :=
  match jobRef with
  | some r => some ("Error processing ".toList ++ pyRepr r ++ ": ".toList
      ++ pyFormatS error.message)
  | none => error.message

/-- The sibling errors other than the primary one (`err != error`
filtering, by dictionary equality). -/
def newErrorsOf (error : PyErr) (errorLs : List PyErr) : List PyErr :=
  errorLs.filter (fun e => e ≠ error)

/-- The `'Failure details:'` block: one wrapped entry per non-primary
sibling, joined by newlines.  `fill` stands for the external
`textwrap.fill(text, initial_indent, subsequent_indent)` collaborator. -/
def failureDetails (fill : Str → Str → Str → Str) (newErrors : List PyErr) : Str :=
  "\nFailure details:\n".toList ++
    (List.intercalate "\n".toList
      (newErrors.map (fun err => fill (err.message.getD []) " - ".toList "   ".toList)))

/-- The fully composed message: `some (some m)` is a message value,
`some none` a message that is still `None`, and `none` the Python
`TypeError` raised by `None + str` when details must be appended to an
absent message. -/
def composedMessage (fill : Str → Str → Str → Str) (error : PyErr)
    (errorLs : List PyErr) (jobRef : Option Reference) : Option (Option Str) :=
  let base := baseMessage error jobRef
  match newErrorsOf error errorLs with
  | [] => some base
  | e :: es =>
    match base with
    | none => none
    | some b => some (some (b ++ failureDetails fill (e :: es)))

/-- The fixed `InterfaceError` text for a malformed server error. -/
def interfaceErrorMessage (serverError : Str) : Str :=
  "Error reported by server with missing error fields. Server returned: ".toList
    ++ serverError

/-- The exact-match reason table of `BigqueryError.Create` (its chain of
`if reason == ...` returns, ending in the generic `ServiceError`). -/
def classifyByReason (r m : Str) (error : PyErr) (errorLs : List PyErr)
    (jobRef : Option Reference) : BigqueryError :=
  if r = "notFound".toList then .notFoundError m error errorLs jobRef
  else if r = "duplicate".toList then .duplicateError m error errorLs jobRef
  else if r = "accessDenied".toList then .accessDeniedError m error errorLs jobRef
  else if r = "invalidQuery".toList then .invalidQueryError m error errorLs jobRef
  else if r = "termsOfServiceNotAccepted".toList then
    .termsOfServiceError m error errorLs jobRef
  else .serviceError m error errorLs jobRef

/-- `BigqueryError.Create`: classify a json error.  `fill` is the
external `textwrap.fill` collaborator; `none` models the uncaught
`TypeError` of appending details to a `None` message. -/
def BigqueryError.Create (fill : Str → Str → Str → Str) (error : PyErr)
    (serverError : Str) (errorLs : List PyErr) (jobRef : Option Reference) :
    Option BigqueryError :=
  let reason := error.reason
  match composedMessage fill error errorLs jobRef with
  | none => none
  | some message =>
    if optFalsy reason || optFalsy message then
      some (.interfaceError (interfaceErrorMessage serverError))
    else
      some (classifyByReason (reason.getD []) (message.getD []) error errorLs jobRef)

/-! ## The job wait loop (`WaitJob`)

The wait loop is modelled with a poll oracle (`polls i` is the outcome of
the `i`-th `PollJob` call), discrete time (one unit per `time.sleep(1)`),
and an event trace recording every `printer.Print` and `printer.Done`
call.  The returned job resource is represented by its `status.state`.
The fuel argument only bounds the recursion; `WaitJobAux_total` shows the
initial fuel is never exhausted, so the model is total on the Python
loop's own exit paths. -/

namespace BigqueryClient

/-- The outcome of one `PollJob` call: a fetched job state, a
`BigqueryCommunicationError` (swallowed by the loop), or another
`BigqueryError` (propagated). -/
inductive PollResult
  | res (state : Str)
  | commErr
  | svcErr
deriving DecidableEq

/-- One call on the wait printer. -/
inductive WaitEvent
  | print (jobId : Str) (waitTime : Nat) (state : Str)
  | done
deriving DecidableEq

/-- How waiting ended: the job reached the desired state (`WaitJob`
returns it), the overall wait budget elapsed (`StopIteration` raised,
carrying the last-observed state), or a poll raised a non-communication
error. -/
inductive WaitOutcome
  | finished (state : Str)
  | timedOut (lastState : Str)
  | pollError
deriving DecidableEq

/-- The local sleep schedule: `itertools.chain(repeat(1, 8),
xrange(2, 30, 3), repeat(30))`, as a function of the iteration index. -/
def waitSchedule (i : Nat) : Nat :=
  if i < 8 then 1 else if i < 18 then 2 + 3 * (i - 8) else 30

/-- The `Print` calls of one inner sleep loop of `n` ticks starting at
elapsed time `elapsed`. -/
def tickEvents (jobId : Str) (elapsed n : Nat) (st : Str) : List WaitEvent :=
  (List.range n).map (fun k => .print jobId (elapsed + k) st)

/-- One unrolling of the `WaitJob` polling loop.  Arguments after the
fixed ones: remaining fuel, iteration index, elapsed wall-clock time,
the `current_wait` variable (the last value read from the clock), the
`current_status` variable, and the printer events so far. -/
def WaitJobAux (polls : Nat → PollResult) (jobId status : Str) (wait : Nat) :
    Nat → Nat → Nat → Nat → Str → List WaitEvent →
    Option (WaitOutcome × List WaitEvent)
  | 0, _, _, cw, st, ev =>
    if cw > wait then some (.timedOut st, ev) else none
  | fuel' + 1, i, elapsed, cw, st, ev =>
    if cw > wait then some (.timedOut st, ev)
    else
      match polls i with
      | .svcErr => some (.pollError, ev)
      | .commErr =>
        let n := waitSchedule i
        WaitJobAux polls jobId status wait fuel' (i + 1) (elapsed + n)
          (elapsed + n - 1) st (ev ++ tickEvents jobId elapsed n st)
      | .res jst =>
        if jst = status then
          some (.finished jst, ev ++ [.print jobId cw jst, .done])
        else
          let n := waitSchedule i
          WaitJobAux polls jobId status wait fuel' (i + 1) (elapsed + n)
            (elapsed + n - 1) jst (ev ++ tickEvents jobId elapsed n jst)

/-- `WaitJob`: poll for a job until it reaches the requested status or
the wait budget elapses, reporting progress through the printer. -/
def WaitJob (polls : Nat → PollResult) (jobId status : Str) (wait : Nat) :
    Option (WaitOutcome × List WaitEvent) :=
  WaitJobAux polls jobId status wait (wait + 2) 0 0 0 "UNKNOWN".toList []

/-- Number of `Done` calls in an event trace. -/
def doneCount (ev : List WaitEvent) : Nat :=
  ev.countP (fun e => match e with | .done => true | _ => false)

end BigqueryClient

/-! ## Source-list parsing (`ProcessSources`) -/

/-- What the local filesystem says about a path: `os.path.exists` /
`os.path.isfile`. -/
inductive FsEntry
  | missing
  | file
  | other
deriving DecidableEq

/-- Python `s.split(c)`: always at least one token. -/
def pySplit (c : Char) : Str → List Str
  | [] => [[]]
  | x :: rest =>
    match pySplit c rest with
    | [] => [[]]
    | h :: t => if x = c then [] :: h :: t else (x :: h) :: t

/-- Python whitespace, for `str.strip()`. -/
def isPySpace (c : Char) : Bool :=
  c == ' ' || c == '\t' || c == '\n' || c == '\r' || c == '\x0b' || c == '\x0c'

/-- Python `s.strip()`. -/
def pyStrip (s : Str) : Str :=
  ((s.dropWhile isPySpace).reverse.dropWhile isPySpace).reverse

/-- The remote-storage scheme `gs://`. -/
def gsScheme : Str := "gs://".toList

namespace BigqueryClient

/-- `ProcessSources`: split a comma-separated source string into trimmed
tokens; a nonempty `gs://` subset must cover all tokens, otherwise the
single remaining token must name an existing regular file.  `fs` models
the local filesystem. -/
def ProcessSources (fs : Str → FsEntry) (sourceString : Str) :
    Except BigqueryError (List Str) :=
  let sources := (pySplit ',' sourceString).map pyStrip
  let gsUris := sources.filter (fun source => gsScheme.isPrefixOf source)
  match sources with
  | [] => .error (.clientError ("No sources specified".toList))
  | source :: rest =>
    if gsUris ≠ [] then
      if gsUris.length ≠ sources.length then
        .error (.clientError
          ("All URIs must begin with \"gs://\" if any do.".toList))
      else .ok sources
    else if rest ≠ [] then
      .error (.clientError
        ("Local upload currently supports only one file, found ".toList
          ++ (Nat.repr sources.length).toList))
    else
      match fs source with
      | .missing => .error (.clientError
          ("Source file not found: ".toList ++ source))
      | .other => .error (.clientError
          ("Source path is not a file: ".toList ++ source))
      | .file => .ok sources

end BigqueryClient

/-! ## Job configuration building (`_ApplyParameters` and the wrappers) -/

/-- A JSON-ish value appearing in a job configuration. -/
inductive PyVal
  | s (v : Str)
  | n (v : Int)
  | b (v : Bool)
  | ls (v : List PyVal)
  | dict (v : List (Str × PyVal))

/-- A job configuration dictionary, as its lookup function. -/
def Config := Str → Option PyVal

/-- `config[k] = v`. -/
def insertKey (c : Config) (k : Str) (v : PyVal) : Config :=
  fun k' => if k' = k then some v else c k'

/-- `_ToLowerCamel`: `re.sub('_[a-z]', ...)`, replacing each
underscore-lowercase pair by the uppercased letter, scanning left to
right. -/
def _ToLowerCamel : Str → Str
  | [] => []
  | '_' :: c :: rest =>
    if 'a' ≤ c ∧ c ≤ 'z' then c.toUpper :: _ToLowerCamel rest
    else '_' :: _ToLowerCamel (c :: rest)
  | c :: rest => c :: _ToLowerCamel rest

/-- `_ApplyParameters`: add every keyword whose value is not `None` to
the configuration, under its lowerCamelCase name. -/
def _ApplyParameters (config : Config) (kwds : List (Str × Option PyVal)) : Config :=
  kwds.foldl
    (fun c kv =>
      match kv.2 with
      | none => c
      | some v => insertKey c (_ToLowerCamel kv.1) v)
    config

/-- The last keyword in `kwds` that is not `None` and whose lowerCamel
name is `k` (the value `_ApplyParameters` leaves at `k`, if any). -/
def lastApplied : List (Str × Option PyVal) → Str → Option PyVal
  | [], _ => none
  | kv :: rest, k =>
    match lastApplied rest k with
    | some v => some v
    | none =>
      match kv.2 with
      | some v => if _ToLowerCamel kv.1 = k then some v else none
      | none => none

/-- `dict(reference)`, as a configuration value. -/
def fieldNameStr : FieldName → Str
  | .projectId => "projectId".toList
  | .datasetId => "datasetId".toList
  | .tableId => "tableId".toList
  | .jobId => "jobId".toList

/-- `dict(reference)` rendered as a plain field map. -/
def refFields (r : Reference) : PyVal :=
  .dict ((requiredFields r).map (fun f => (fieldNameStr f, .s (getField r f))))

namespace BigqueryClient

/-- The configuration-building part of `CopyTable` (the `ExecuteJob`
submission is transport glue outside the claims): the `copy`
configuration value. -/
def CopyTable (sourceReference destReference : Reference)
    (createDisposition writeDisposition : Option Str) : Config :=
  let copyConfig : Config := fun k =>
    if k = "destinationTable".toList then some (refFields destReference)
    else if k = "sourceTable".toList then some (refFields sourceReference)
    else none
  _ApplyParameters copyConfig
    [("create_disposition".toList, createDisposition.map .s),
     ("write_disposition".toList, writeDisposition.map .s)]

/-- `Query`, step 1: `query_config = {'query': query}`. -/
def queryBaseConfig (query : Str) : Config :=
  fun k => if k = "query".toList then some (.s query) else none

/-- `Query`, step 2: `if self.dataset_id: query_config['defaultDataset'] =
dict(self.GetDatasetReference())` (whose failure propagates). -/
def queryWithDataset (cl : Client) (query : Str) : Except BigqueryError Config :=
  if cl.dataset_id ≠ [] then
    match GetDatasetReference cl [] with
    | some r => .ok (insertKey (queryBaseConfig query) ("defaultDataset".toList)
        (refFields r))
    | none => .error (.genericError
        ("Cannot determine dataset described by ".toList))
  else .ok (queryBaseConfig query)

/-- `Query`, step 3: `if destination_table: query_config['destinationTable']
= dict(self.GetTableReference(destination_table))`, re-raising resolution
failures. -/
def queryWithDest (cl : Client) (destinationTable : Option Str) (c1 : Config) :
    Except BigqueryError Config :=
  match destinationTable with
  | none => .ok c1
  | some dt =>
    if dt = [] then .ok c1
    else
      match GetTableReference cl dt with
      | some r => .ok (insertKey c1 ("destinationTable".toList) (refFields r))
      | none => .error (.genericError
          ("Invalid value for destination_table: ".toList ++ dt))

/-- `Query`, step 4: `if priority is not None: query_config['priority'] =
priority`. -/
def queryWithPriority (priority : Option Str) (c2 : Config) : Config :=
  match priority with
  | some pv => insertKey c2 ("priority".toList) (.s pv)
  | none => c2

/-- The configuration-building part of `Query`: the `query`
configuration value, or the error raised while building it. -/
def Query (cl : Client) (query : Str) (destinationTable : Option Str)
    (createDisposition writeDisposition priority : Option Str) :
    Except BigqueryError Config :=
  if query = [] then .error (.clientError ("No query string provided".toList))
  else
    match queryWithDataset cl query with
    | .error e => .error e
    | .ok c1 =>
      match queryWithDest cl destinationTable c1 with
      | .error e => .error e
      | .ok c2 =>
        .ok (_ApplyParameters (queryWithPriority priority c2)
          [("create_disposition".toList, createDisposition.map .s),
           ("write_disposition".toList, writeDisposition.map .s)])

/-- `Load`, step 1: `load_config = {'destinationTable': dict(...)}`. -/
def loadBaseConfig (destinationTableReference : Reference) : Config :=
  fun k =>
    if k = "destinationTable".toList then some (refFields destinationTableReference)
    else none

/-- `Load`, step 2: `if sources[0].startswith('gs://'):
load_config['sourceUris'] = sources; else upload_file = sources[0]`. -/
def loadWithSources (c0 : Config) (sources : List Str) (src : Str) :
    Config × Option Str :=
  if gsScheme.isPrefixOf src then
    (insertKey c0 ("sourceUris".toList) (.ls (sources.map .s)), none)
  else (c0, some src)

/-- `Load`, step 3: `if schema is not None: load_config['schema'] =
{'fields': ReadSchema(schema)}`, propagating schema errors. -/
def loadWithSchema (readSchemaFn : Str → Except BigqueryError PyVal)
    (schema : Option Str) (c1 : Config) : Except BigqueryError Config :=
  match schema with
  | none => .ok c1
  | some sch =>
    match readSchemaFn sch with
    | .error e => .error e
    | .ok fieldsVal =>
      .ok (insertKey c1 ("schema".toList) (.dict [("fields".toList, fieldsVal)]))

/-- The configuration-building part of `Load`: the `load` configuration
value and the local `upload_file`, or the error raised while building
them.  `readSchemaFn` stands for `ReadSchema` (whose own logic reads the
filesystem and parses JSON, outside the claims). -/
def Load (fs : Str → FsEntry) (readSchemaFn : Str → Except BigqueryError PyVal)
    (destinationTableReference : Reference) (source : Str) (schema : Option Str)
    (createDisposition writeDisposition fieldDelimiter : Option Str)
    (skipLeadingRows : Option Int) (encoding quote : Option Str)
    (maxBadRecords : Option Int) (allowQuotedNewlines : Option Bool)
    (sourceFormat : Option Str) :
    Except BigqueryError (Config × Option Str) :=
  match ProcessSources fs source with
  | .error e => .error e
  | .ok sources =>
    match sources with
    | [] => .error (.clientError ("No sources specified".toList))
    | src :: _ =>
      match loadWithSchema readSchemaFn schema
          (loadWithSources (loadBaseConfig destinationTableReference) sources src).1 with
      | .error e => .error e
      | .ok c2 =>
        .ok (_ApplyParameters c2
          [("create_disposition".toList, createDisposition.map .s),
           ("write_disposition".toList, writeDisposition.map .s),
           ("field_delimiter".toList, fieldDelimiter.map .s),
           ("skip_leading_rows".toList, skipLeadingRows.map .n),
           ("encoding".toList, encoding.map .s),
           ("quote".toList, quote.map .s),
           ("max_bad_records".toList, maxBadRecords.map .n),
           ("source_format".toList, sourceFormat.map .s),
           ("allow_quoted_newlines".toList, allowQuotedNewlines.map .b)],
          (loadWithSources (loadBaseConfig destinationTableReference) sources src).2)

/-- The configuration-building part of `Extract`: the `extract`
configuration value, or the error raised while building it. -/
def Extract (sourceTable : Reference) (destinationUri : Str)
    (printHeader : Option Bool) (fieldDelimiter destinationFormat : Option Str) :
    Except BigqueryError Config :=
  if ¬ (gsScheme.isPrefixOf destinationUri) then
    .error (.clientError ("Extract only supports \"gs://\" uris.".toList))
  else
    let c0 : Config := fun k =>
      if k = "sourceTable".toList then some (refFields sourceTable) else none
    .ok (_ApplyParameters c0
      [("destination_uri".toList, some (.s destinationUri)),
       ("destination_format".toList, destinationFormat.map .s),
       ("print_header".toList, printHeader.map .b),
       ("field_delimiter".toList, fieldDelimiter.map .s)])

end BigqueryClient

/-- A concrete stand-in for the external `textwrap.fill` collaborator,
used to evaluate the classifier at concrete inputs: prepend the initial
indent to the text (what `textwrap.fill` does for a short single-line
text). -/
def fillPlain (text initialIndent _subsequentIndent : Str) : Str :=
  initialIndent ++ text

/-! ## Splitting lemmas -/

theorem splitFirst_eq_some {c : Char} {s a b : Str}
    (h : splitFirst c s = some (a, b)) : s = a ++ c :: b ∧ c ∉ a := by
  induction s generalizing a b with
  | nil => simp [splitFirst] at h
  | cons x rest ih =>
    rw [splitFirst] at h
    by_cases hx : x = c
    · subst hx
      simp only [if_pos rfl, Option.some.injEq, Prod.mk.injEq] at h
      obtain ⟨rfl, rfl⟩ := h
      simp
    · rw [if_neg hx] at h
      rcases hsf : splitFirst c rest with _ | ⟨a', b'⟩
      · rw [hsf] at h; simp at h
      · rw [hsf] at h
        simp only [Option.map_some', Option.some.injEq, Prod.mk.injEq] at h
        obtain ⟨rfl, rfl⟩ := h
        obtain ⟨h1, h2⟩ := ih hsf
        subst h1
        refine ⟨rfl, ?_⟩
        intro hmem
        rcases List.mem_cons.mp hmem with rfl | hmem'
        · exact hx rfl
        · exact h2 hmem'

theorem splitFirst_append {c : Char} {a : Str} (b : Str) (ha : c ∉ a) :
    splitFirst c (a ++ c :: b) = some (a, b) := by
  induction a with
  | nil => simp [splitFirst]
  | cons x rest ih =>
    have hx : x ≠ c := by
      intro hxc; exact ha (hxc ▸ List.mem_cons_self x rest)
    have hrest : c ∉ rest := fun hm => ha (List.mem_cons_of_mem x hm)
    simp only [List.cons_append, splitFirst, if_neg hx, List.append_eq,
      ih hrest, Option.map_some']

theorem splitFirst_eq_none {c : Char} {s : Str} (h : c ∉ s) :
    splitFirst c s = none := by
  induction s with
  | nil => rfl
  | cons x rest ih =>
    have hx : x ≠ c := by
      intro hxc; exact h (hxc ▸ List.mem_cons_self x rest)
    have hrest : c ∉ rest := fun hm => h (List.mem_cons_of_mem x hm)
    simp [splitFirst, if_neg hx, ih hrest]

theorem splitFirst_isSome {c : Char} {s : Str} (h : c ∈ s) :
    ∃ a b, splitFirst c s = some (a, b) := by
  induction s with
  | nil => simp at h
  | cons x rest ih =>
    by_cases hx : x = c
    · exact ⟨[], rest, by simp [splitFirst, hx]⟩
    · have hr : c ∈ rest := by
        rcases List.mem_cons.mp h with rfl | hr
        · exact absurd rfl hx
        · exact hr
      obtain ⟨a, b, hab⟩ := ih hr
      exact ⟨x :: a, b, by simp [splitFirst, if_neg hx, hab]⟩

theorem pyPartition_append {c : Char} {a : Str} (b : Str) (ha : c ∉ a) :
    pyPartition c (a ++ c :: b) = (a, b) := by
  rw [pyPartition, splitFirst_append b ha]

theorem pyPartition_not_mem {c : Char} {s : Str} (h : c ∉ s) :
    pyPartition c s = (s, []) := by
  rw [pyPartition, splitFirst_eq_none h]

theorem pyRPartition_append {c : Char} (a : Str) {b : Str} (hb : c ∉ b) :
    pyRPartition c (a ++ c :: b) = (a, b) := by
  rw [pyRPartition]
  have hrev : (a ++ c :: b).reverse = b.reverse ++ c :: a.reverse := by
    simp
  rw [hrev, splitFirst_append _ (by simpa using hb)]
  simp

theorem pyRPartition_not_mem {c : Char} {s : Str} (h : c ∉ s) :
    pyRPartition c s = ([], s) := by
  rw [pyRPartition, splitFirst_eq_none (by simpa using h)]

theorem splitAtFirst_append {c : Char} {a : Str} (b : Str) (ha : c ∉ a) :
    splitAtFirst c (a ++ c :: b) = (a, b) := by
  induction a with
  | nil => simp [splitAtFirst]
  | cons x rest ih =>
    have hx : x ≠ c := fun hxc => ha (hxc ▸ List.mem_cons_self x rest)
    have hrest : c ∉ rest := fun hm => ha (List.mem_cons_of_mem x hm)
    have hmem : c ∈ rest ++ c :: b := by simp
    simp [splitAtFirst, if_neg hx, hmem, ih hrest]

theorem splitAtFirst_not_mem {c : Char} {s : Str} (h : c ∉ s) :
    splitAtFirst c s = (s, []) := by
  cases s with
  | nil => rfl
  | cons x rest =>
    have hx : x ≠ c := fun hxc => h (hxc ▸ List.mem_cons_self x rest)
    have hrest : c ∉ rest := fun hm => h (List.mem_cons_of_mem x hm)
    simp [splitAtFirst, if_neg hx, hrest]

theorem splitAtLast_append {c : Char} (a : Str) {b : Str} (hb : c ∉ b) :
    splitAtLast c (a ++ c :: b) = (a, b) := by
  induction a with
  | nil =>
    simp [splitAtLast, if_neg hb]
  | cons x rest ih =>
    have hmem : c ∈ rest ++ c :: b := by simp
    simp [splitAtLast, hmem, ih]

theorem splitAtLast_not_mem {c : Char} {s : Str} (h : c ∉ s) :
    splitAtLast c s = ([], s) := by
  cases s with
  | nil => rfl
  | cons x rest =>
    have hx : x ≠ c := fun hxc => h (hxc ▸ List.mem_cons_self x rest)
    have hrest : c ∉ rest := fun hm => h (List.mem_cons_of_mem x hm)
    simp [splitAtLast, hrest, if_neg hx]

theorem pyPartition_eq_splitAtFirst (c : Char) (s : Str) :
    pyPartition c s = splitAtFirst c s := by
  by_cases h : c ∈ s
  · obtain ⟨a, b, hab⟩ := splitFirst_isSome h
    obtain ⟨rfl, ha⟩ := splitFirst_eq_some hab
    rw [pyPartition_append b ha, splitAtFirst_append b ha]
  · rw [pyPartition_not_mem h, splitAtFirst_not_mem h]

theorem pyRPartition_eq_splitAtLast (c : Char) (s : Str) :
    pyRPartition c s = splitAtLast c s := by
  by_cases h : c ∈ s
  · have h' : c ∈ s.reverse := by simpa using h
    obtain ⟨al, bl, hab⟩ := splitFirst_isSome h'
    obtain ⟨hs, hal⟩ := splitFirst_eq_some hab
    have hs' : s = bl.reverse ++ c :: al.reverse := by
      have h2 := congrArg List.reverse hs
      simpa using h2
    rw [hs', pyRPartition_append _ (by simpa using hal),
      splitAtLast_append _ (by simpa using hal)]
  · rw [pyRPartition_not_mem h, splitAtLast_not_mem h]

/-! ## The regex matcher agrees with the regex's concatenation structure -/

theorem matchDomainPart_iff {A : Str} : matchDomainPart A = true ↔ DomainPart A := by
  constructor
  · intro h
    cases A with
    | nil => simp [matchDomainPart] at h
    | cons c rest =>
      simp only [matchDomainPart, Bool.and_eq_true, decide_eq_true_eq] at h
      obtain ⟨⟨hc, hall⟩, hdot⟩ := h
      obtain ⟨m, q, hmq⟩ := List.append_of_mem hdot
      have hrest_ne : rest ≠ [] := by
        intro h0; rw [h0] at hdot; simp at hdot
      obtain ⟨lst, ys, hys⟩ : ∃ a ys, rest = ys ++ [a] :=
        ⟨rest.getLast hrest_ne, rest.dropLast,
          (List.dropLast_concat_getLast hrest_ne).symm⟩
      have hdrop : rest.dropLast = ys := by rw [hys, List.dropLast_concat]
      have hys2 : ys = m ++ '.' :: q := by rw [← hdrop, hmq]
      have hrest : rest = m ++ '.' :: (q ++ [lst]) := by
        rw [hys, hys2]; simp
      refine ⟨c, m, q ++ [lst], ?_, hc, ?_, by simp, ?_⟩
      · rw [hrest]; simp
      · intro x hx
        have hxr : x ∈ rest := by
          rw [hrest]; exact List.mem_append_left _ hx
        exact (List.all_eq_true.mp hall) x hxr
      · intro x hx
        have hxr : x ∈ rest := by
          rw [hrest]
          exact List.mem_append_right _ (List.mem_cons_of_mem _ hx)
        exact (List.all_eq_true.mp hall) x hxr
  · rintro ⟨c, m, p, rfl, hc, hm, hp, hpall⟩
    simp only [List.cons_append, matchDomainPart, Bool.and_eq_true,
      decide_eq_true_eq]
    refine ⟨⟨hc, ?_⟩, ?_⟩
    · rw [List.all_eq_true]
      intro x hx
      rcases List.mem_append.mp hx with hx | hx
      · exact hm x hx
      · rcases List.mem_cons.mp hx with rfl | hx
        · decide
        · exact hpall x hx
    · rw [List.dropLast_append_cons, List.dropLast_cons_of_ne_nil hp]
      simp

theorem matchLocalPart_iff {B : Str} : matchLocalPart B = true ↔ LocalPart B := by
  constructor
  · intro h
    cases B with
    | nil => simp [matchLocalPart] at h
    | cons c rest =>
      simp only [matchLocalPart, Bool.and_eq_true] at h
      exact ⟨c, rest, rfl, h.1, List.all_eq_true.mp h.2⟩
  · rintro ⟨c, r, rfl, hc, hr⟩
    simp only [matchLocalPart, Bool.and_eq_true]
    exact ⟨hc, List.all_eq_true.mpr hr⟩

theorem DomainPart_not_colon {A : Str} (h : DomainPart A) : ':' ∉ A := by
  obtain ⟨c, m, p, rfl, hc, hm, _, hpall⟩ := h
  intro hmem
  rcases List.mem_cons.mp hmem with h1 | h1
  · rw [← h1] at hc; exact absurd hc (by decide)
  · rcases List.mem_append.mp h1 with h2 | h2
    · exact absurd (hm _ h2) (by decide)
    · rcases List.mem_cons.mp h2 with h3 | h3
      · exact absurd h3 (by decide)
      · exact absurd (hpall _ h3) (by decide)

theorem LocalPart_not_colon {B : Str} (h : LocalPart B) : ':' ∉ B := by
  obtain ⟨c, r, rfl, hc, hr⟩ := h
  intro hmem
  rcases List.mem_cons.mp hmem with h1 | h1
  · rw [← h1] at hc; exact absurd hc (by decide)
  · exact absurd (hr _ h1) (by decide)

theorem domainMatch_iff {s : Str} : domainMatch s = true ↔ DomainScoped s := by
  constructor
  · intro h
    rw [domainMatch] at h
    rcases hsf : splitFirst ':' s with _ | ⟨A, rest⟩
    · rw [hsf] at h; simp at h
    · rw [hsf] at h
      simp only [Bool.and_eq_true, Bool.or_eq_true, beq_iff_eq] at h
      obtain ⟨hA, hrest⟩ := h
      obtain ⟨rfl, _⟩ := splitFirst_eq_some hsf
      rcases hrest with hB | ⟨hlast, hB⟩
      · exact ⟨A, rest, Or.inl rfl, matchDomainPart_iff.mp hA,
          matchLocalPart_iff.mp hB⟩
      · obtain ⟨ys, hys⟩ := List.getLast?_eq_some_iff.mp hlast
        refine ⟨A, rest.dropLast, Or.inr ?_, matchDomainPart_iff.mp hA,
          matchLocalPart_iff.mp hB⟩
        rw [hys, List.dropLast_concat]
        simp
  · rintro ⟨A, B, hshape, hA, hB⟩
    have hAc : ':' ∉ A := DomainPart_not_colon hA
    rcases hshape with rfl | rfl
    · rw [domainMatch, splitFirst_append _ hAc]
      simp only [Bool.and_eq_true, Bool.or_eq_true]
      exact ⟨matchDomainPart_iff.mpr hA, Or.inl (matchLocalPart_iff.mpr hB)⟩
    · rw [domainMatch]
      rw [show A ++ ':' :: B ++ [':'] = A ++ ':' :: (B ++ [':']) from by simp]
      rw [splitFirst_append _ hAc]
      simp only [Bool.and_eq_true, Bool.or_eq_true, beq_iff_eq]
      refine ⟨matchDomainPart_iff.mpr hA, Or.inr ⟨List.getLast?_concat _, ?_⟩⟩
      rw [List.dropLast_concat]
      exact matchLocalPart_iff.mpr hB

/-! ## Claim C1 -/

theorem domainMatch_no_colon {s : Str} (h : ':' ∉ s) : domainMatch s = false := by
  rw [domainMatch, splitFirst_eq_none h]

theorem matchDomainPart_no_dot {A : Str} (h : '.' ∉ A) :
    matchDomainPart A = false := by
  cases A with
  | nil => rfl
  | cons c rest =>
    have hd : '.' ∉ rest.dropLast := fun hm =>
      h (List.mem_cons_of_mem _ ((List.dropLast_sublist rest).mem hm))
    simp [matchDomainPart, hd]

theorem domainMatch_no_dot_before_colon {p rest0 : Str} (hpc : ':' ∉ p)
    (hpd : '.' ∉ p) : domainMatch (p ++ ':' :: rest0) = false := by
  rw [domainMatch, splitFirst_append _ hpc]
  simp [matchDomainPart_no_dot hpd]

theorem parseIdentifier_eq_spec (s : Str) :
    BigqueryClient._ParseIdentifier s = parseIdentifierSpec s := by
  simp only [BigqueryClient._ParseIdentifier, parseIdentifierSpec,
    pyRPartition_eq_splitAtLast, pyPartition_eq_splitAtFirst]

/-- Claim C1: for every identifier, `_ParseIdentifier` returns `(s, '', '')`
exactly when `s` matches the domain-scoped project pattern (a domain-like
dotted token, a colon, a project-local name, optionally a trailing colon);
otherwise it splits at the last colon into `(projectPart, rest)` and splits
`rest` at its first dot when `projectPart` is nonempty, at its last dot when
it is empty, returning missing parts as empty strings and performing no
character-set validation.  Stated as: the executable matcher coincides with
the regex's decomposition structure (`DomainScoped`), and `_ParseIdentifier`
coincides with the literal last-colon/first-dot/last-dot algorithm
(`parseIdentifierSpec`) on all inputs. -/
theorem claim_C1 (s : Str) :
    (domainMatch s = true ↔ DomainScoped s) ∧
    BigqueryClient._ParseIdentifier s = parseIdentifierSpec s :=
  ⟨domainMatch_iff, parseIdentifier_eq_spec s⟩

/-! ## Parse shapes used by the resolver claims -/

theorem parse_bare {t : Str} (htc : ':' ∉ t) (htd : '.' ∉ t) :
    BigqueryClient._ParseIdentifier t = ([], [], t) := by
  simp [BigqueryClient._ParseIdentifier, domainMatch_no_colon htc,
    pyRPartition_not_mem htc, pyRPartition_not_mem htd]

theorem parse_colon {p rest : Str} (hp : p ≠ []) (hpc : ':' ∉ p) (hpd : '.' ∉ p)
    (hrc : ':' ∉ rest) :
    BigqueryClient._ParseIdentifier (p ++ ':' :: rest) =
      (p, (pyPartition '.' rest).1, (pyPartition '.' rest).2) := by
  rw [BigqueryClient._ParseIdentifier]
  rw [domainMatch_no_dot_before_colon hpc hpd]
  simp [pyRPartition_append _ hrc, hp]

/-! ## Claim C2 -/

/-- Claim C2: `GetReference` attempts table resolution first, then
dataset, then project, returning the first success, and fails exactly
when all three fail; and a bare single-token identifier `foo` with
nonempty ambient project `p` and ambient dataset `d` resolves to
`TableReference(p, d, foo)`. -/
theorem claim_C2 :
    (∀ (cl : Client) (s : Str),
      (∀ r, BigqueryClient.GetTableReference cl s = some r →
        BigqueryClient.GetReference cl s = some r) ∧
      (BigqueryClient.GetTableReference cl s = none →
        ∀ r, BigqueryClient.GetDatasetReference cl s = some r →
          BigqueryClient.GetReference cl s = some r) ∧
      (BigqueryClient.GetTableReference cl s = none →
        BigqueryClient.GetDatasetReference cl s = none →
        BigqueryClient.GetReference cl s = BigqueryClient.GetProjectReference cl s) ∧
      (BigqueryClient.GetReference cl s = none ↔
        (BigqueryClient.GetTableReference cl s = none ∧
         BigqueryClient.GetDatasetReference cl s = none ∧
         BigqueryClient.GetProjectReference cl s = none))) ∧
    (∀ p d foo : Str, p ≠ [] → d ≠ [] → foo ≠ [] → ':' ∉ foo → '.' ∉ foo →
      BigqueryClient.GetReference ⟨p, d⟩ foo = some (.table p d foo)) := by
  constructor
  · intro cl s
    refine ⟨?_, ?_, ?_, ?_⟩
    · intro r hr; rw [BigqueryClient.GetReference, hr]
    · intro ht r hd; rw [BigqueryClient.GetReference, ht, hd]
    · intro ht hd; rw [BigqueryClient.GetReference, ht, hd]
    · rcases ht : BigqueryClient.GetTableReference cl s with _ | r
      · rcases hd : BigqueryClient.GetDatasetReference cl s with _ | r2
        · rw [BigqueryClient.GetReference, ht, hd]; simp
        · rw [BigqueryClient.GetReference, ht, hd]; simp
      · rw [BigqueryClient.GetReference, ht]; simp
  · intro p d foo hp hd hfoo hc hdot
    have ht : BigqueryClient.GetTableReference ⟨p, d⟩ foo =
        some (.table p d foo) := by
      simp [BigqueryClient.GetTableReference, parse_bare hc hdot, pyOr,
        TableReference.Create, hp, hd, hfoo]
    rw [BigqueryClient.GetReference, ht]

/-- Witness for claim C2 at a concrete input. -/
theorem claim_C2_witness :
    BigqueryClient.GetReference ⟨"p".toList, "d".toList⟩ "foo".toList =
      some (.table "p".toList "d".toList "foo".toList) :=
  claim_C2.2 _ _ _ (by decide) (by decide) (by decide) (by decide) (by decide)

/-! ## Claim C3 -/

/-- Claim C3 counterexample: `ProjectReference('p') == DatasetReference('p','d')`
evaluates to `true` although the two references are of different variants,
refuting the claim that different-variant comparisons always return false. -/
theorem claim_C3_counterexample :
    refEq (.project "p".toList) (.dataset "p".toList "d".toList) = true ∧
    variantOf (.project "p".toList) ≠
      variantOf (.dataset "p".toList "d".toList) := by
  decide

/-- Claim C3 (amended): `a == b` holds iff every required field of `a`
equals the corresponding entry of `b`'s field dictionary (missing entries
defaulting to `''`); for two references of the same variant this coincides
with agreement on all required fields (structural equality).  Comparisons
of different variants never raise, but may return true when `a`'s required
fields form a compatible subset of `b`'s (the counterexample above). -/
theorem claim_C3_amended (a b : Reference) :
    (refEq a b = true ↔
      ∀ f ∈ requiredFields a, getField a f = (refDictGet b f).getD []) ∧
    (variantOf a = variantOf b → (refEq a b = true ↔ a = b)) := by
  constructor
  · rw [refEq, List.all_eq_true]
    constructor
    · intro h f hf; exact beq_iff_eq.mp (h f hf)
    · intro h f hf; exact beq_iff_eq.mpr (h f hf)
  · intro hv
    cases a <;> cases b <;>
      simp_all [variantOf, refEq, requiredFields, getField, refDictGet]

/-- Witness for claim C3 (amended) at a concrete input: two equal-variant
references with equal fields compare equal. -/
theorem claim_C3_witness :
    refEq (.dataset "p".toList "d".toList) (.dataset "p".toList "d".toList) = true :=
  ((claim_C3_amended _ _).2 rfl).mpr rfl

/-! ## Claim C7 -/

theorem not_colon_append {d t : Str} (hdc : ':' ∉ d) (htc : ':' ∉ t) :
    ':' ∉ d ++ '.' :: t := by
  intro hm
  rcases List.mem_append.mp hm with h | h
  · exact hdc h
  · rcases List.mem_cons.mp h with h | h
    · exact absurd h (by decide)
    · exact htc h

theorem parse_table_string {p d t : Str} (hp : p ≠ []) (hpc : ':' ∉ p)
    (hpd : '.' ∉ p) (hdc : ':' ∉ d) (hdd : '.' ∉ d) (htc : ':' ∉ t) :
    BigqueryClient._ParseIdentifier (p ++ ':' :: (d ++ '.' :: t)) = (p, d, t) := by
  rw [parse_colon hp hpc hpd (not_colon_append hdc htc), pyPartition_append _ hdd]

theorem parse_dataset_string {p d : Str} (hp : p ≠ []) (hpc : ':' ∉ p)
    (hpd : '.' ∉ p) (hdc : ':' ∉ d) (hdd : '.' ∉ d) :
    BigqueryClient._ParseIdentifier (p ++ ':' :: d) = (p, d, []) := by
  rw [parse_colon hp hpc hpd hdc, pyPartition_not_mem hdd]

/-- Claim C7 counterexample: with ambient project `p0` and dataset `d0`,
the canonical string of `ProjectReference('p')` resolves through
`GetReference` to `TableReference(p0, d0, p)`, which is not equal to the
original reference (structurally, and under `==` in either order): the
round trip fails. -/
theorem claim_C7_counterexample :
    BigqueryClient.GetReference ⟨"p0".toList, "d0".toList⟩
        (refStr (.project "p".toList)) =
      some (.table "p0".toList "d0".toList "p".toList) ∧
    Reference.table "p0".toList "d0".toList "p".toList ≠
      Reference.project "p".toList ∧
    refEq (.project "p".toList) (.table "p0".toList "d0".toList "p".toList) = false ∧
    refEq (.table "p0".toList "d0".toList "p".toList) (.project "p".toList) = false := by
  decide

/-- Claim C7 (amended): for references whose required fields are nonempty
and contain no colon and no dot, rendering to the canonical string and
resolving round-trips to an equal reference for the table and dataset
forms under `GetReference` and the job form under `GetJobReference`, for
every ambient client; the project form round-trips under `GetReference`
only when the client's default project id is empty (with ambient defaults
set, the bare project string resolves to a more specific reference type
instead — the counterexample above). -/
theorem claim_C7_amended (cl : Client) (p d t j : Str)
    (hp : p ≠ []) (hpc : ':' ∉ p) (hpd : '.' ∉ p)
    (hd : d ≠ []) (hdc : ':' ∉ d) (hdd : '.' ∉ d)
    (ht : t ≠ []) (htc : ':' ∉ t) (htd : '.' ∉ t)
    (hj : j ≠ []) (hjc : ':' ∉ j) (hjd : '.' ∉ j) :
    BigqueryClient.GetReference cl (refStr (.table p d t)) = some (.table p d t) ∧
    BigqueryClient.GetReference cl (refStr (.dataset p d)) = some (.dataset p d) ∧
    BigqueryClient.GetJobReference cl (refStr (.job p j)) = some (.job p j) ∧
    (cl.project_id = [] →
      BigqueryClient.GetReference cl (refStr (.project p)) = some (.project p)) := by
  refine ⟨?_, ?_, ?_, ?_⟩
  · have hshape : refStr (.table p d t) = p ++ ':' :: (d ++ '.' :: t) := by
      simp [refStr]
    have htbl : BigqueryClient.GetTableReference cl (p ++ ':' :: (d ++ '.' :: t)) =
        some (.table p d t) := by
      simp [BigqueryClient.GetTableReference,
        parse_table_string hp hpc hpd hdc hdd htc, pyOr,
        TableReference.Create, hp, hd, ht]
    rw [hshape, BigqueryClient.GetReference, htbl]
  · have htbl : BigqueryClient.GetTableReference cl (p ++ ':' :: d) = none := by
      simp [BigqueryClient.GetTableReference,
        parse_dataset_string hp hpc hpd hdc hdd, TableReference.Create]
    have hds : BigqueryClient.GetDatasetReference cl (p ++ ':' :: d) =
        some (.dataset p d) := by
      simp [BigqueryClient.GetDatasetReference,
        parse_dataset_string hp hpc hpd hdc hdd, hp, hd,
        DatasetReference.Create]
    rw [refStr, BigqueryClient.GetReference, htbl, hds]
  · simp [BigqueryClient.GetJobReference, refStr,
      parse_dataset_string hp hpc hpd hjc hjd, hp, hj, JobReference.Create]
  · intro hcl
    have htbl : BigqueryClient.GetTableReference cl p = none := by
      simp [BigqueryClient.GetTableReference, parse_bare hpc hpd, pyOr, hcl,
        TableReference.Create]
    have hds : BigqueryClient.GetDatasetReference cl p = none := by
      simp [BigqueryClient.GetDatasetReference, parse_bare hpc hpd, hp, hcl,
        DatasetReference.Create]
    have hpr : BigqueryClient.GetProjectReference cl p = some (.project p) := by
      simp [BigqueryClient.GetProjectReference, parse_bare hpc hpd, pyOr, hp,
        ProjectReference.Create]
    rw [refStr, BigqueryClient.GetReference, htbl, hds, hpr]

/-- Witness for claim C7 (amended) at a concrete input. -/
theorem claim_C7_witness :
    BigqueryClient.GetReference ⟨"ap".toList, "ad".toList⟩
        (refStr (.table "p".toList "d".toList "t".toList)) =
      some (.table "p".toList "d".toList "t".toList) :=
  (claim_C7_amended ⟨"ap".toList, "ad".toList⟩ "p".toList "d".toList "t".toList
    "j".toList (by decide) (by decide) (by decide) (by decide) (by decide)
    (by decide) (by decide) (by decide) (by decide) (by decide) (by decide)
    (by decide)).1

/-! ## Claims C4 and C8 -/

theorem composedMessage_eq_none_iff (fill : Str → Str → Str → Str)
    (error : PyErr) (errorLs : List PyErr) (jobRef : Option Reference) :
    composedMessage fill error errorLs jobRef = none ↔
      (jobRef = none ∧ error.message = none ∧ newErrorsOf error errorLs ≠ []) := by
  rw [composedMessage]
  rcases hne : newErrorsOf error errorLs with _ | ⟨e1, es⟩
  · simp
  · rcases jobRef with _ | r
    · rcases hm : error.message with _ | m
      · simp [baseMessage, hm]
      · simp [baseMessage, hm]
    · simp [baseMessage]

theorem optFalsy_baseMessage_some {error : PyErr} {r : Reference} :
    optFalsy (baseMessage error (some r)) = false := by
  simp only [baseMessage, optFalsy, Option.getD_some]
  rw [show ("Error processing ".toList : Str) =
    'E' :: "rror processing ".toList from rfl]
  simp

theorem failureDetails_ne_nil (fill : Str → Str → Str → Str)
    (es : List PyErr) : failureDetails fill es ≠ [] := by
  rw [failureDetails, show ("\nFailure details:\n".toList : Str) =
    '\n' :: "Failure details:\n".toList from rfl]
  simp

theorem optFalsy_append_details {b : Str} {fill : Str → Str → Str → Str}
    {es : List PyErr} : optFalsy (some (b ++ failureDetails fill es)) = false := by
  have h := failureDetails_ne_nil fill es
  rcases hfd : failureDetails fill es with _ | ⟨c, cs⟩
  · exact absurd hfd h
  · simp [optFalsy, hfd]

theorem composedMessage_nil {fill : Str → Str → Str → Str} {error : PyErr}
    {errorLs : List PyErr} (jobRef : Option Reference)
    (hne : newErrorsOf error errorLs = []) :
    composedMessage fill error errorLs jobRef = some (baseMessage error jobRef) := by
  simp [composedMessage, hne]

theorem composedMessage_cons_none {fill : Str → Str → Str → Str} {error : PyErr}
    {errorLs : List PyErr} {jobRef : Option Reference} {e1 : PyErr} {es : List PyErr}
    (hne : newErrorsOf error errorLs = e1 :: es)
    (hb : baseMessage error jobRef = none) :
    composedMessage fill error errorLs jobRef = none := by
  simp [composedMessage, hne, hb]

theorem composedMessage_cons_some {fill : Str → Str → Str → Str} {error : PyErr}
    {errorLs : List PyErr} {jobRef : Option Reference} {e1 : PyErr} {es : List PyErr}
    {b : Str} (hne : newErrorsOf error errorLs = e1 :: es)
    (hb : baseMessage error jobRef = some b) :
    composedMessage fill error errorLs jobRef =
      some (some (b ++ failureDetails fill (e1 :: es))) := by
  simp [composedMessage, hne, hb]

theorem optFalsy_composed {fill : Str → Str → Str → Str} {error : PyErr}
    {errorLs : List PyErr} {jobRef : Option Reference} {msg : Option Str}
    (hcm : composedMessage fill error errorLs jobRef = some msg) :
    optFalsy msg = true ↔
      (jobRef = none ∧ newErrorsOf error errorLs = [] ∧
        optFalsy error.message = true) := by
  rcases hne : newErrorsOf error errorLs with _ | ⟨e1, es⟩
  · rw [composedMessage_nil jobRef hne] at hcm
    injection hcm with hcm; subst hcm
    rcases jobRef with _ | r
    · simp [baseMessage]
    · simp [optFalsy_baseMessage_some]
  · rcases hb : baseMessage error jobRef with _ | b
    · rw [composedMessage_cons_none hne hb] at hcm
      exact absurd hcm (by simp)
    · rw [composedMessage_cons_some hne hb] at hcm
      injection hcm with hcm; subst hcm
      simp [hne, optFalsy_append_details]

theorem isInterfaceError_classifyByReason (r m : Str) (error : PyErr)
    (errorLs : List PyErr) (jobRef : Option Reference) :
    isInterfaceError (classifyByReason r m error errorLs jobRef) = false := by
  unfold classifyByReason
  repeat' split
  all_goals rfl

theorem isClientConfigurationError_classifyByReason (r m : Str) (error : PyErr)
    (errorLs : List PyErr) (jobRef : Option Reference) :
    isClientConfigurationError (classifyByReason r m error errorLs jobRef) = false := by
  unfold classifyByReason
  repeat' split
  all_goals rfl

theorem msgOf_classifyByReason (r m : Str) (error : PyErr)
    (errorLs : List PyErr) (jobRef : Option Reference) :
    msgOf (classifyByReason r m error errorLs jobRef) = m := by
  unfold classifyByReason
  repeat' split
  all_goals rfl

theorem classifyByReason_tos (m : Str) (error : PyErr) (errorLs : List PyErr)
    (jobRef : Option Reference) :
    classifyByReason "termsOfServiceNotAccepted".toList m error errorLs jobRef =
      .termsOfServiceError m error errorLs jobRef := by
  rw [classifyByReason, if_neg (by decide), if_neg (by decide),
    if_neg (by decide), if_neg (by decide), if_pos rfl]

theorem Create_composed_some {fill : Str → Str → Str → Str} {error : PyErr}
    (serverError : Str) {errorLs : List PyErr} {jobRef : Option Reference}
    {msg : Option Str}
    (hcm : composedMessage fill error errorLs jobRef = some msg) :
    BigqueryError.Create fill error serverError errorLs jobRef =
      (if optFalsy error.reason || optFalsy msg then
        some (.interfaceError (interfaceErrorMessage serverError))
      else
        some (classifyByReason (error.reason.getD []) (msg.getD [])
          error errorLs jobRef)) := by
  simp only [BigqueryError.Create, hcm]

theorem Create_composed_none {fill : Str → Str → Str → Str} {error : PyErr}
    (serverError : Str) {errorLs : List PyErr} {jobRef : Option Reference}
    (hcm : composedMessage fill error errorLs jobRef = none) :
    BigqueryError.Create fill error serverError errorLs jobRef = none := by
  simp only [BigqueryError.Create, hcm]

/-- Claim C4 counterexample: a primary error with reason `notFound` and an
absent message, classified with a job reference supplied, yields a
`NotFoundError` (the job prefix makes the composed message nonempty), not
the `InterfaceError` the claim requires for an absent message. -/
theorem claim_C4_counterexample :
    BigqueryError.Create fillPlain ⟨some "notFound".toList, none⟩ "srv".toList []
        (some (.job "p".toList "j".toList)) =
      some (.notFoundError
        ("Error processing ".toList ++ pyRepr (.job "p".toList "j".toList)
          ++ ": ".toList ++ "None".toList)
        ⟨some "notFound".toList, none⟩ [] (some (.job "p".toList "j".toList))) ∧
    (BigqueryError.Create fillPlain ⟨some "notFound".toList, none⟩ "srv".toList []
        (some (.job "p".toList "j".toList))).map isInterfaceError = some false := by
  decide

/-- Claim C4 (amended): the classifier produces an `InterfaceError` iff the
reason is absent or empty, or the composed message is falsy — which, because
a supplied job reference prefixes the message with `Error processing ...`
and appended failure details make it nonempty, happens exactly when there is
no job reference, no non-primary sibling, and the primary message is absent
or empty.  When the primary message is absent, there is no job reference,
and non-primary siblings exist, the call raises `TypeError` (modelled as
`none`).  Otherwise the kind is selected by exact match on the reason via
`classifyByReason` (notFound, duplicate, accessDenied, invalidQuery,
termsOfServiceNotAccepted — a subclass of AccessDeniedError — and the
generic ServiceError for anything else). -/
theorem claim_C4_amended (fill : Str → Str → Str → Str) (error : PyErr)
    (serverError : Str) (errorLs : List PyErr) (jobRef : Option Reference) :
    (BigqueryError.Create fill error serverError errorLs jobRef = none ↔
      (jobRef = none ∧ error.message = none ∧ newErrorsOf error errorLs ≠ [])) ∧
    (∀ e, BigqueryError.Create fill error serverError errorLs jobRef = some e →
      (isInterfaceError e = true ↔
        (optFalsy error.reason = true ∨
          (jobRef = none ∧ newErrorsOf error errorLs = [] ∧
            optFalsy error.message = true))) ∧
      (isInterfaceError e = true →
        e = .interfaceError (interfaceErrorMessage serverError)) ∧
      (∀ r m, error.reason = some r → r ≠ [] →
        composedMessage fill error errorLs jobRef = some (some m) → m ≠ [] →
        e = classifyByReason r m error errorLs jobRef) ∧
      (error.reason = some "termsOfServiceNotAccepted".toList →
        isInterfaceError e = false → isAccessDeniedClass e = true)) := by
  constructor
  · rw [← composedMessage_eq_none_iff fill error errorLs jobRef]
    constructor
    · intro h
      rcases hcm : composedMessage fill error errorLs jobRef with _ | msg
      · rfl
      · rw [Create_composed_some serverError hcm] at h
        split at h <;> simp at h
    · intro h; exact Create_composed_none serverError h
  · intro e he
    rcases hcm : composedMessage fill error errorLs jobRef with _ | msg
    · rw [Create_composed_none serverError hcm] at he; simp at he
    · rw [Create_composed_some serverError hcm] at he
      by_cases hfal : (optFalsy error.reason || optFalsy msg) = true
      · rw [if_pos hfal] at he
        injection he with he
        subst he
        refine ⟨?_, fun _ => rfl, ?_, ?_⟩
        · simp only [isInterfaceError, true_iff]
          rw [Bool.or_eq_true] at hfal
          rcases hfal with h | h
          · exact Or.inl h
          · exact Or.inr ((optFalsy_composed hcm).mp h)
        · intro r m' hr hrne hcm2 hmne
          exfalso
          have hmsg : msg = some m' := by injection hcm2
          subst hmsg
          rw [hr] at hfal
          simp [optFalsy, List.isEmpty_eq_true, hrne, hmne] at hfal
        · intro _ hif
          simp [isInterfaceError] at hif
      · rw [if_neg hfal] at he
        injection he with he
        subst he
        refine ⟨?_, ?_, ?_, ?_⟩
        · rw [isInterfaceError_classifyByReason]
          simp only [Bool.false_eq_true, false_iff]
          intro hcon
          apply hfal
          rw [Bool.or_eq_true]
          rcases hcon with h | h
          · exact Or.inl h
          · exact Or.inr ((optFalsy_composed hcm).mpr h)
        · intro hif
          rw [isInterfaceError_classifyByReason] at hif
          exact absurd hif (by simp)
        · intro r m' hr hrne hcm2 hmne
          have hmsg : msg = some m' := by injection hcm2
          subst hmsg
          rw [hr]
          simp only [Option.getD_some]
        · intro htos hif
          rw [htos]
          simp only [Option.getD_some]
          rw [classifyByReason_tos]
          rfl

/-- Witness for claim C4 (amended) at a concrete input: reason `notFound`
with a present message and no siblings classifies via the reason table. -/
theorem claim_C4_witness :
    BigqueryError.Create fillPlain ⟨some "notFound".toList, some "m".toList⟩
        "srv".toList [] none =
      some (classifyByReason "notFound".toList "m".toList
        ⟨some "notFound".toList, some "m".toList⟩ [] none) := by
  have he : BigqueryError.Create fillPlain
      ⟨some "notFound".toList, some "m".toList⟩ "srv".toList [] none =
        some (.notFoundError "m".toList
          ⟨some "notFound".toList, some "m".toList⟩ [] none) := by decide
  rw [he]
  exact congrArg some
    (((claim_C4_amended fillPlain ⟨some "notFound".toList, some "m".toList⟩
        "srv".toList [] none).2 _ he).2.2.1
      "notFound".toList "m".toList rfl (by decide) (by decide) (by decide))

theorem optFalsy_some_ne {x : Str} (h : x ≠ []) : optFalsy (some x) = false := by
  rcases x with _ | ⟨c, cs⟩
  · exact absurd rfl h
  · rfl

/-- Claim C8 counterexample: with a job reference supplied and one
non-primary sibling, the constructed message is the job-prefixed
`Error processing job ...: m` followed by the failure-details block — not
the bare primary message followed by the block, as the claim states. -/
theorem claim_C8_counterexample :
    (BigqueryError.Create fillPlain ⟨some "r1".toList, some "m".toList⟩
        "srv".toList [⟨some "r2".toList, some "m2".toList⟩]
        (some (.job "p".toList "j".toList))).map msgOf =
      some ("Error processing ".toList ++ pyRepr (.job "p".toList "j".toList)
        ++ ": ".toList ++ "m".toList ++ "\nFailure details:\n".toList
        ++ " - m2".toList) ∧
    (BigqueryError.Create fillPlain ⟨some "r1".toList, some "m".toList⟩
        "srv".toList [⟨some "r2".toList, some "m2".toList⟩]
        (some (.job "p".toList "j".toList))).map msgOf ≠
      some ("m".toList ++ "\nFailure details:\n".toList ++ " - m2".toList) := by
  decide

/-- Claim C8 (amended): when the classifier returns a reason-classified
error (nonempty reason, truthy base message), the constructed message is
the base message — the primary message, or, when a job reference is
supplied, the prefixed `Error processing <ref>: <message>` — alone when
the sibling list has no non-primary entry, and otherwise followed by a
newline, the header `Failure details:`, a newline, and one wrapped entry
per non-primary sibling (wrapped by the external `textwrap.fill` with
`' - '` / `'   '` indents), joined by newlines; so with 2 non-primary
siblings exactly two entries are appended. -/
theorem claim_C8_amended (fill : Str → Str → Str → Str) (error : PyErr)
    (serverError : Str) (errorLs : List PyErr) (jobRef : Option Reference)
    (r b : Str) (e : BigqueryError)
    (hr : error.reason = some r) (hrne : r ≠ [])
    (hb : baseMessage error jobRef = some b) (hbne : b ≠ [])
    (he : BigqueryError.Create fill error serverError errorLs jobRef = some e) :
    (newErrorsOf error errorLs = [] → msgOf e = b) ∧
    (newErrorsOf error errorLs ≠ [] →
      msgOf e = b ++ "\nFailure details:\n".toList ++
        List.intercalate "\n".toList
          ((newErrorsOf error errorLs).map
            (fun err => fill (err.message.getD []) " - ".toList "   ".toList))) := by
  constructor
  · intro hne
    have hcm := @composedMessage_nil fill error errorLs jobRef hne
    rw [hb] at hcm
    rw [Create_composed_some serverError hcm] at he
    rw [if_neg (by rw [hr, optFalsy_some_ne hrne, optFalsy_some_ne hbne]; simp)] at he
    injection he with he
    rw [← he, msgOf_classifyByReason]
    rfl
  · intro hne2
    rcases hx : newErrorsOf error errorLs with _ | ⟨e1, es⟩
    · exact absurd hx hne2
    · have hcm := @composedMessage_cons_some fill error errorLs jobRef e1 es b hx hb
      rw [Create_composed_some serverError hcm] at he
      rw [if_neg (by rw [hr, optFalsy_some_ne hrne, optFalsy_append_details]; simp)] at he
      injection he with he
      rw [← he, msgOf_classifyByReason]
      simp only [Option.getD_some, failureDetails, hx]
      simp [List.append_assoc]

/-- Witness for claim C8 (amended) at a concrete input: two non-primary
siblings append exactly two detail entries. -/
theorem claim_C8_witness :
    msgOf (.serviceError ("m\nFailure details:\n - m2\n - m3".toList)
        ⟨some "r1".toList, some "m".toList⟩
        [⟨some "r2".toList, some "m2".toList⟩, ⟨some "r3".toList, some "m3".toList⟩]
        none) =
      "m".toList ++ "\nFailure details:\n".toList ++
        List.intercalate "\n".toList [" - m2".toList, " - m3".toList] := by
  have he : BigqueryError.Create fillPlain ⟨some "r1".toList, some "m".toList⟩
      "srv".toList
      [⟨some "r2".toList, some "m2".toList⟩, ⟨some "r3".toList, some "m3".toList⟩]
      none =
      some (.serviceError ("m\nFailure details:\n - m2\n - m3".toList)
        ⟨some "r1".toList, some "m".toList⟩
        [⟨some "r2".toList, some "m2".toList⟩, ⟨some "r3".toList, some "m3".toList⟩]
        none) := by decide
  have h := (claim_C8_amended fillPlain ⟨some "r1".toList, some "m".toList⟩
      "srv".toList
      [⟨some "r2".toList, some "m2".toList⟩, ⟨some "r3".toList, some "m3".toList⟩]
      none "r1".toList "m".toList _ rfl (by decide) rfl (by decide) he).2
      (by decide)
  rw [h]
  decide

/-! ## Claims C5 and C6 -/

theorem waitSchedule_pos (i : Nat) : 0 < BigqueryClient.waitSchedule i := by
  rw [BigqueryClient.waitSchedule]
  split
  · omega
  · split <;> omega

theorem doneCount_append (a b : List BigqueryClient.WaitEvent) :
    BigqueryClient.doneCount (a ++ b) =
      BigqueryClient.doneCount a + BigqueryClient.doneCount b :=
  List.countP_append _ _ _

theorem doneCount_tickEvents (jobId : Str) (elapsed n : Nat) (st : Str) :
    BigqueryClient.doneCount (BigqueryClient.tickEvents jobId elapsed n st) = 0 := by
  rw [BigqueryClient.doneCount, BigqueryClient.tickEvents,
    List.countP_eq_zero]
  intro a ha
  obtain ⟨k, _, rfl⟩ := List.mem_map.mp ha
  simp

theorem WaitJobAux_total (polls : Nat → BigqueryClient.PollResult)
    (jobId status : Str) (wait : Nat) :
    ∀ fuel i elapsed cw st ev, elapsed ≤ cw + 1 → wait + 2 ≤ fuel + elapsed →
      BigqueryClient.WaitJobAux polls jobId status wait fuel i elapsed cw st ev ≠
        none := by
  intro fuel
  induction fuel with
  | zero =>
    intro i elapsed cw st ev h1 h2
    rw [BigqueryClient.WaitJobAux, if_pos (by omega)]
    simp
  | succ f ih =>
    intro i elapsed cw st ev h1 h2
    rw [BigqueryClient.WaitJobAux]
    by_cases hcw : cw > wait
    · rw [if_pos hcw]; simp
    · rw [if_neg hcw]
      have hn := waitSchedule_pos i
      rcases hp : polls i with jst | _ | _
      · by_cases hjst : jst = status
        · simp [hjst]
        · simp only [if_neg hjst]
          exact ih (i + 1) (elapsed + BigqueryClient.waitSchedule i)
            (elapsed + BigqueryClient.waitSchedule i - 1) jst _ (by omega) (by omega)
      · exact ih (i + 1) (elapsed + BigqueryClient.waitSchedule i)
          (elapsed + BigqueryClient.waitSchedule i - 1) st _ (by omega) (by omega)
      · simp

theorem WaitJobAux_doneCount (polls : Nat → BigqueryClient.PollResult)
    (jobId status : Str) (wait : Nat) :
    ∀ fuel i elapsed cw st ev out evf,
      BigqueryClient.WaitJobAux polls jobId status wait fuel i elapsed cw st ev =
        some (out, evf) →
      BigqueryClient.doneCount evf =
        BigqueryClient.doneCount ev +
          (match out with | .finished _ => 1 | _ => 0) := by
  intro fuel
  induction fuel with
  | zero =>
    intro i elapsed cw st ev out evf h
    rw [BigqueryClient.WaitJobAux] at h
    by_cases hcw : cw > wait
    · rw [if_pos hcw] at h
      simp only [Option.some.injEq, Prod.mk.injEq] at h
      obtain ⟨rfl, rfl⟩ := h
      simp
    · rw [if_neg hcw] at h; simp at h
  | succ f ih =>
    intro i elapsed cw st ev out evf h
    rw [BigqueryClient.WaitJobAux] at h
    by_cases hcw : cw > wait
    · rw [if_pos hcw] at h
      simp only [Option.some.injEq, Prod.mk.injEq] at h
      obtain ⟨rfl, rfl⟩ := h
      simp
    · rw [if_neg hcw] at h
      split at h
      · simp only [Option.some.injEq, Prod.mk.injEq] at h
        obtain ⟨rfl, rfl⟩ := h
        simp
      · rw [ih _ _ _ _ _ _ _ h, doneCount_append, doneCount_tickEvents]
        simp
      · split at h
        · simp only [Option.some.injEq, Prod.mk.injEq] at h
          obtain ⟨rfl, rfl⟩ := h
          rw [doneCount_append]
          rfl
        · rw [ih _ _ _ _ _ _ _ h, doneCount_append, doneCount_tickEvents]
          simp

/-- Claim C5 counterexample: with a 0-second wait budget and a job that
stays `PENDING`, waiting ends by timeout (`StopIteration`) after two
progress `Print` calls and the printer's `Done` hook is never invoked —
refuting the claim that `Done` runs exactly once on every way waiting can
end.  (The `while`/`else` clause raises before the `printer.Done()`
line is reached.) -/
theorem claim_C5_counterexample :
    BigqueryClient.WaitJob (fun _ => .res "PENDING".toList) "j".toList
        "DONE".toList 0 =
      some (.timedOut "PENDING".toList,
        [.print "j".toList 0 "PENDING".toList,
         .print "j".toList 1 "PENDING".toList]) ∧
    BigqueryClient.doneCount
        [BigqueryClient.WaitEvent.print "j".toList 0 "PENDING".toList,
         BigqueryClient.WaitEvent.print "j".toList 1 "PENDING".toList] = 0 := by
  decide

/-- Claim C5 (amended): waiting always ends (the model is total on the
loop's own exit paths), and the printer's `Done` hook is invoked exactly
once when the job reaches the desired state — including when it is
already there on the first poll — and zero times when the wait budget
times out (`StopIteration` propagates before `printer.Done()`) or a
non-communication error ends a poll. -/
theorem claim_C5_amended (polls : Nat → BigqueryClient.PollResult)
    (jobId status : Str) (wait : Nat) :
    BigqueryClient.WaitJob polls jobId status wait ≠ none ∧
    ∀ out ev, BigqueryClient.WaitJob polls jobId status wait = some (out, ev) →
      BigqueryClient.doneCount ev =
        (match out with | .finished _ => 1 | _ => 0) := by
  constructor
  · exact WaitJobAux_total polls jobId status wait (wait + 2) 0 0 0
      "UNKNOWN".toList [] (by omega) (by omega)
  · intro out ev h
    have h2 := WaitJobAux_doneCount polls jobId status wait (wait + 2) 0 0 0
      "UNKNOWN".toList [] out ev h
    simpa [BigqueryClient.doneCount] using h2

/-- Witness for claim C5 (amended) at a concrete input: a job already in
the desired state gets exactly one `Done` call. -/
theorem claim_C5_witness :
    BigqueryClient.doneCount
        [BigqueryClient.WaitEvent.print "j".toList 0 "DONE".toList,
         BigqueryClient.WaitEvent.done] = 1 :=
  (claim_C5_amended (fun _ => .res "DONE".toList) "j".toList "DONE".toList 0).2
    (.finished "DONE".toList) _ (by decide)

theorem pySplit_ne_nil (c : Char) (s : Str) : pySplit c s ≠ [] := by
  induction s with
  | nil => simp [pySplit]
  | cons x rest ih =>
    rw [pySplit]
    rcases hr : pySplit c rest with _ | ⟨h, t⟩
    · simp
    · by_cases hx : x = c <;> simp [hx]

/-- Claim C9 counterexample: mixed sources fail with the generic
`BigqueryClientError` (library-misuse error), which is not an instance of
the `BigqueryClientConfigurationError` subclass the claim names. -/
theorem claim_C9_counterexample :
    BigqueryClient.ProcessSources (fun _ => .missing) "gs://a,local.csv".toList =
      .error (.clientError
        "All URIs must begin with \"gs://\" if any do.".toList) ∧
    isClientConfigurationError
      (.clientError "All URIs must begin with \"gs://\" if any do.".toList) =
      false ∧
    isClientErrorClass
      (.clientError "All URIs must begin with \"gs://\" if any do.".toList) =
      true := by
  exact ⟨rfl, rfl, rfl⟩

/-- Claim C9 (amended): `ProcessSources` splits on commas into trimmed
tokens (always at least one); if any token starts with `gs://` then either
all do and the full token list is returned, or the call fails with the
generic `BigqueryClientError` (not its configuration subclass); otherwise
the call fails unless there is exactly one token naming an existing
regular file, in which case the single-token list is returned. -/
theorem claim_C9_amended (fs : Str → FsEntry) (s : Str) (sources gsUris : List Str)
    (hs : sources = (pySplit ',' s).map pyStrip)
    (hg : gsUris = sources.filter (fun source => gsScheme.isPrefixOf source)) :
    sources ≠ [] ∧
    (gsUris ≠ [] → gsUris.length = sources.length →
      BigqueryClient.ProcessSources fs s = .ok sources) ∧
    (gsUris ≠ [] → gsUris.length ≠ sources.length →
      BigqueryClient.ProcessSources fs s =
        .error (.clientError
          "All URIs must begin with \"gs://\" if any do.".toList)) ∧
    (gsUris = [] →
      (∀ src, sources = [src] →
        (fs src = .file → BigqueryClient.ProcessSources fs s = .ok [src]) ∧
        (fs src = .missing → BigqueryClient.ProcessSources fs s =
          .error (.clientError ("Source file not found: ".toList ++ src))) ∧
        (fs src = .other → BigqueryClient.ProcessSources fs s =
          .error (.clientError ("Source path is not a file: ".toList ++ src)))) ∧
      (∀ src src2 rest, sources = src :: src2 :: rest →
        BigqueryClient.ProcessSources fs s =
          .error (.clientError
            ("Local upload currently supports only one file, found ".toList
              ++ (Nat.repr sources.length).toList)))) := by
  subst hs
  subst hg
  rcases hsrc : (pySplit ',' s).map pyStrip with _ | ⟨src0, rest0⟩
  · exact absurd (List.map_eq_nil_iff.mp hsrc) (pySplit_ne_nil ',' s)
  · refine ⟨by simp, ?_, ?_, ?_⟩
    · intro hg1 hg2
      simp only [BigqueryClient.ProcessSources, hsrc]
      rw [if_pos hg1, if_neg (by omega)]
    · intro hg1 hg2
      simp only [BigqueryClient.ProcessSources, hsrc]
      rw [if_pos hg1, if_pos hg2]
    · intro hg0
      constructor
      · intro src hone
        injection hone with h1 h2
        subst h1
        subst h2
        refine ⟨?_, ?_, ?_⟩ <;> intro hfs <;>
          simp only [BigqueryClient.ProcessSources, hsrc] <;>
          rw [if_neg (by simp [hg0]), if_neg (by simp)] <;>
          rw [hfs]
      · intro src src2 rest hmany
        injection hmany with h1 h2
        subst h1
        subst h2
        simp only [BigqueryClient.ProcessSources, hsrc]
        rw [if_neg (by simp [hg0]), if_pos (by simp)]

/-- Witness for claim C9 (amended): two `gs://` URIs are returned whole. -/
theorem claim_C9_witness :
    BigqueryClient.ProcessSources (fun _ => .missing) "gs://a,gs://b".toList =
      .ok ["gs://a".toList, "gs://b".toList] :=
  (claim_C9_amended (fun _ => .missing) "gs://a,gs://b".toList
      ["gs://a".toList, "gs://b".toList] ["gs://a".toList, "gs://b".toList]
      (by decide) (by decide)).2.1 (by decide) (by decide)

/-! ## Claim C10 -/

theorem insertKey_same (c : Config) (k : Str) (v : PyVal) :
    insertKey c k v k = some v := by
  simp [insertKey]

theorem insertKey_other (c : Config) {k k' : Str} (v : PyVal) (h : k' ≠ k) :
    insertKey c k v k' = c k' := by
  simp [insertKey, h]

theorem applyParameters_lookup (config : Config)
    (kwds : List (Str × Option PyVal)) (k : Str) :
    _ApplyParameters config kwds k =
      match lastApplied kwds k with
      | some v => some v
      | none => config k := by
  induction kwds generalizing config with
  | nil => rfl
  | cons kv rest ih =>
    rcases kv with ⟨name, v⟩
    rcases v with _ | v
    · rw [show _ApplyParameters config ((name, none) :: rest) =
        _ApplyParameters config rest from rfl]
      rw [ih, lastApplied]
      rcases lastApplied rest k with _ | w <;> rfl
    · rw [show _ApplyParameters config ((name, some v) :: rest) =
        _ApplyParameters (insertKey config (_ToLowerCamel name) v) rest from rfl]
      rw [ih, lastApplied]
      rcases lastApplied rest k with _ | w
      · by_cases hk : _ToLowerCamel name = k
        · subst hk
          simp [insertKey_same]
        · simp only [if_neg hk]
          exact insertKey_other config v (fun hcon => hk hcon.symm)
      · rfl

theorem lastApplied_none_of_all_none {kwds : List (Str × Option PyVal)} {k : Str}
    (h : ∀ kv ∈ kwds, _ToLowerCamel kv.1 = k → kv.2 = none) :
    lastApplied kwds k = none := by
  induction kwds with
  | nil => rfl
  | cons kv rest ih =>
    rw [lastApplied, ih (fun x hx => h x (List.mem_cons_of_mem _ hx))]
    rcases hv : kv.2 with _ | v
    · rfl
    · by_cases hk : _ToLowerCamel kv.1 = k
      · have := h kv (List.mem_cons_self _ _) hk
        rw [hv] at this
        exact absurd this (by simp)
      · simp [hk]

theorem lastApplied_cons_ne {name : Str} {v : Option PyVal}
    {rest : List (Str × Option PyVal)} {k : Str} (h : _ToLowerCamel name ≠ k) :
    lastApplied ((name, v) :: rest) k = lastApplied rest k := by
  rw [lastApplied]
  rcases lastApplied rest k with _ | w
  · rcases v with _ | v
    · rfl
    · simp [h]
  · rfl

theorem lastApplied_cons_none {name : Str} {rest : List (Str × Option PyVal)}
    {k : Str} : lastApplied ((name, none) :: rest) k = lastApplied rest k := by
  rw [lastApplied]
  rcases lastApplied rest k with _ | w <;> rfl

theorem lastApplied_cons_some {name : Str} {v : PyVal}
    {rest : List (Str × Option PyVal)} {k : Str} (h : _ToLowerCamel name = k)
    (hrest : lastApplied rest k = none) :
    lastApplied ((name, some v) :: rest) k = some v := by
  rw [lastApplied, hrest]
  simp [h]

theorem CopyTable_config_facts (src dst : Reference) (cd wd : Option Str) :
    BigqueryClient.CopyTable src dst cd wd "destinationTable".toList =
      some (refFields dst) ∧
    BigqueryClient.CopyTable src dst cd wd "sourceTable".toList =
      some (refFields src) ∧
    (∀ k, k ≠ "destinationTable".toList → k ≠ "sourceTable".toList →
      BigqueryClient.CopyTable src dst cd wd k =
        match lastApplied
          [("create_disposition".toList, cd.map .s),
           ("write_disposition".toList, wd.map .s)] k with
        | some v => some v
        | none => none) := by
  refine ⟨?_, ?_, ?_⟩
  · simp only [BigqueryClient.CopyTable]
    rw [applyParameters_lookup, lastApplied_cons_ne (by decide),
      lastApplied_cons_ne (by decide)]
    rfl
  · simp only [BigqueryClient.CopyTable]
    rw [applyParameters_lookup, lastApplied_cons_ne (by decide),
      lastApplied_cons_ne (by decide)]
    rfl
  · intro k hk1 hk2
    simp only [BigqueryClient.CopyTable]
    rw [applyParameters_lookup]
    rcases h : lastApplied
      [("create_disposition".toList, cd.map .s),
       ("write_disposition".toList, wd.map .s)] k with _ | v
    · show (if k = "destinationTable".toList then some (refFields dst)
        else if k = "sourceTable".toList then some (refFields src)
        else none) = none
      rw [if_neg hk1, if_neg hk2]
    · rfl

theorem Extract_config_facts (srcT : Reference) (uri : Str) (ph : Option Bool)
    (fd dfm : Option Str) (c : Config)
    (hok : BigqueryClient.Extract srcT uri ph fd dfm = .ok c) :
    c "sourceTable".toList = some (refFields srcT) ∧
    (∀ k, k ≠ "sourceTable".toList →
      c k =
        match lastApplied
          [("destination_uri".toList, some (.s uri)),
           ("destination_format".toList, dfm.map .s),
           ("print_header".toList, ph.map .b),
           ("field_delimiter".toList, fd.map .s)] k with
        | some v => some v
        | none => none) := by
  rw [BigqueryClient.Extract] at hok
  by_cases hgs : gsScheme.isPrefixOf uri
  · rw [if_neg (by simp [hgs])] at hok
    injection hok with hok
    subst hok
    constructor
    · rw [applyParameters_lookup, lastApplied_cons_ne (by decide),
        lastApplied_cons_ne (by decide), lastApplied_cons_ne (by decide),
        lastApplied_cons_ne (by decide)]
      rfl
    · intro k hk
      rw [applyParameters_lookup]
      rcases h : lastApplied
        [("destination_uri".toList, some (.s uri)),
         ("destination_format".toList, dfm.map .s),
         ("print_header".toList, ph.map .b),
         ("field_delimiter".toList, fd.map .s)] k with _ | v
      · show (if k = "sourceTable".toList then some (refFields srcT)
          else none) = none
        rw [if_neg hk]
      · rfl
  · rw [if_pos (by simp [hgs])] at hok
    exact absurd hok (by simp)

theorem queryWithDataset_ok (cl : Client) (query : Str) (c1 : Config)
    (hok : BigqueryClient.queryWithDataset cl query = .ok c1) :
    c1 "query".toList = some (.s query) ∧
    (cl.dataset_id = [] → c1 "defaultDataset".toList = none) ∧
    (∀ k, k ≠ "query".toList → k ≠ "defaultDataset".toList → c1 k = none) := by
  rw [BigqueryClient.queryWithDataset] at hok
  by_cases hds : cl.dataset_id ≠ []
  · rw [if_pos hds] at hok
    rcases hdr : BigqueryClient.GetDatasetReference cl [] with _ | r <;>
      rw [hdr] at hok
    · simp at hok
    · injection hok with hok
      subst hok
      refine ⟨?_, fun h => absurd h hds, ?_⟩
      · rw [insertKey_other _ _ (by decide)]
        rfl
      · intro k hk1 hk2
        rw [insertKey_other _ _ hk2]
        show (if k = "query".toList then some (PyVal.s query) else none) = none
        rw [if_neg hk1]
  · rw [if_neg hds] at hok
    injection hok with hok
    subst hok
    refine ⟨rfl, fun _ => rfl, ?_⟩
    intro k hk1 hk2
    show (if k = "query".toList then some (PyVal.s query) else none) = none
    rw [if_neg hk1]

theorem queryWithDest_ok (cl : Client) (dt : Option Str) (c1 c2 : Config)
    (hok : BigqueryClient.queryWithDest cl dt c1 = .ok c2) :
    (∀ k, k ≠ "destinationTable".toList → c2 k = c1 k) ∧
    (dt = none → c2 = c1) := by
  rcases dt with _ | dtv
  · rw [show BigqueryClient.queryWithDest cl none c1 = .ok c1 from rfl] at hok
    injection hok with hok
    subst hok
    exact ⟨fun k _ => rfl, fun _ => rfl⟩
  · simp only [BigqueryClient.queryWithDest] at hok
    by_cases hdtv : dtv = []
    · rw [if_pos hdtv] at hok
      injection hok with hok
      subst hok
      exact ⟨fun k _ => rfl, fun h => by simp at h⟩
    · rw [if_neg hdtv] at hok
      rcases hdr : BigqueryClient.GetTableReference cl dtv with _ | r <;>
        rw [hdr] at hok
      · simp at hok
      · injection hok with hok
        subst hok
        refine ⟨?_, fun h => by simp at h⟩
        intro k hk
        exact insertKey_other _ _ hk

theorem queryWithPriority_facts (pr : Option Str) (c2 : Config) :
    (pr = none → BigqueryClient.queryWithPriority pr c2 = c2) ∧
    (∀ x, pr = some x →
      BigqueryClient.queryWithPriority pr c2 "priority".toList = some (.s x)) ∧
    (∀ k, k ≠ "priority".toList →
      BigqueryClient.queryWithPriority pr c2 k = c2 k) := by
  rcases pr with _ | x
  · exact ⟨fun _ => rfl, fun x h => by simp at h, fun k _ => rfl⟩
  · refine ⟨fun h => by simp at h, ?_, ?_⟩
    · intro y hy
      injection hy with hy
      subst hy
      exact insertKey_same _ _ _
    · intro k hk
      exact insertKey_other _ _ hk

theorem Query_config_facts (cl : Client) (query : Str) (dt cd wd pr : Option Str)
    (c : Config) (hok : BigqueryClient.Query cl query dt cd wd pr = .ok c) :
    c "query".toList = some (.s query) ∧
    (pr = none → c "priority".toList = none) ∧
    (∀ x, pr = some x → c "priority".toList = some (.s x)) ∧
    (dt = none → c "destinationTable".toList = none) ∧
    (cl.dataset_id = [] → c "defaultDataset".toList = none) ∧
    (∀ k, k ≠ "query".toList → k ≠ "defaultDataset".toList →
      k ≠ "destinationTable".toList → k ≠ "priority".toList →
      c k =
        match lastApplied
          [("create_disposition".toList, cd.map .s),
           ("write_disposition".toList, wd.map .s)] k with
        | some v => some v
        | none => none) := by
  rw [BigqueryClient.Query] at hok
  by_cases hq : query = []
  · rw [if_pos hq] at hok
    simp at hok
  · rw [if_neg hq] at hok
    split at hok
    next e h1 => simp at hok
    next c1 h1 =>
      split at hok
      next e h2 => simp at hok
      next c2 h2 =>
        injection hok with hok
        subst hok
        obtain ⟨hq1, hq2, hq3⟩ := queryWithDataset_ok cl query c1 h1
        obtain ⟨hd1, hd2⟩ := queryWithDest_ok cl dt c1 c2 h2
        obtain ⟨hp1, hp2, hp3⟩ := queryWithPriority_facts pr c2
        refine ⟨?_, ?_, ?_, ?_, ?_, ?_⟩
        · rw [applyParameters_lookup, lastApplied_cons_ne (by decide),
            lastApplied_cons_ne (by decide)]
          show BigqueryClient.queryWithPriority pr c2 "query".toList =
            some (.s query)
          rw [hp3 _ (by decide), hd1 _ (by decide), hq1]
        · intro hpr
          rw [applyParameters_lookup, lastApplied_cons_ne (by decide),
            lastApplied_cons_ne (by decide)]
          show BigqueryClient.queryWithPriority pr c2 "priority".toList = none
          rw [hp1 hpr, hd1 _ (by decide)]
          exact hq3 _ (by decide) (by decide)
        · intro x hx
          rw [applyParameters_lookup, lastApplied_cons_ne (by decide),
            lastApplied_cons_ne (by decide)]
          show BigqueryClient.queryWithPriority pr c2 "priority".toList =
            some (.s x)
          exact hp2 x hx
        · intro hdt
          rw [applyParameters_lookup, lastApplied_cons_ne (by decide),
            lastApplied_cons_ne (by decide)]
          show BigqueryClient.queryWithPriority pr c2 "destinationTable".toList =
            none
          rw [hp3 _ (by decide), hd2 hdt]
          exact hq3 _ (by decide) (by decide)
        · intro hds
          rw [applyParameters_lookup, lastApplied_cons_ne (by decide),
            lastApplied_cons_ne (by decide)]
          show BigqueryClient.queryWithPriority pr c2 "defaultDataset".toList =
            none
          rw [hp3 _ (by decide), hd1 _ (by decide)]
          exact hq2 hds
        · intro k hk1 hk2 hk3 hk4
          rw [applyParameters_lookup]
          rcases h : lastApplied
            [("create_disposition".toList, cd.map .s),
             ("write_disposition".toList, wd.map .s)] k with _ | v
          · show BigqueryClient.queryWithPriority pr c2 k = none
            rw [hp3 _ hk4, hd1 _ hk3]
            exact hq3 _ hk1 hk2
          · rfl

theorem loadWithSources_fst (c0 : Config) (sources : List Str) (src : Str) :
    ∀ k, k ≠ "sourceUris".toList →
      (BigqueryClient.loadWithSources c0 sources src).1 k = c0 k := by
  intro k hk
  rw [BigqueryClient.loadWithSources]
  split
  · exact insertKey_other _ _ hk
  · rfl

theorem loadWithSchema_ok (rsf : Str → Except BigqueryError PyVal)
    (schema : Option Str) (c1 c2 : Config)
    (hok : BigqueryClient.loadWithSchema rsf schema c1 = .ok c2) :
    (∀ k, k ≠ "schema".toList → c2 k = c1 k) ∧ (schema = none → c2 = c1) := by
  rcases schema with _ | sch
  · rw [show BigqueryClient.loadWithSchema rsf none c1 = .ok c1 from rfl] at hok
    injection hok with hok
    subst hok
    exact ⟨fun k _ => rfl, fun _ => rfl⟩
  · simp only [BigqueryClient.loadWithSchema] at hok
    split at hok
    next e hr => simp at hok
    next f hr =>
      injection hok with hok
      subst hok
      refine ⟨?_, fun h => by simp at h⟩
      intro k hk
      exact insertKey_other _ _ hk

theorem Load_config_facts (fs : Str → FsEntry)
    (rsf : Str → Except BigqueryError PyVal) (dest : Reference) (source : Str)
    (schema : Option Str) (cd wd fd : Option Str) (slr : Option Int)
    (enc q : Option Str) (mbr : Option Int) (aqn : Option Bool) (sf : Option Str)
    (c : Config) (up : Option Str)
    (hok : BigqueryClient.Load fs rsf dest source schema cd wd fd slr enc q
      mbr aqn sf = .ok (c, up)) :
    c "destinationTable".toList = some (refFields dest) ∧
    (schema = none → c "schema".toList = none) ∧
    (∀ k, k ≠ "destinationTable".toList → k ≠ "sourceUris".toList →
      k ≠ "schema".toList →
      c k =
        match lastApplied
          [("create_disposition".toList, cd.map .s),
           ("write_disposition".toList, wd.map .s),
           ("field_delimiter".toList, fd.map .s),
           ("skip_leading_rows".toList, slr.map .n),
           ("encoding".toList, enc.map .s),
           ("quote".toList, q.map .s),
           ("max_bad_records".toList, mbr.map .n),
           ("source_format".toList, sf.map .s),
           ("allow_quoted_newlines".toList, aqn.map .b)] k with
        | some v => some v
        | none => none) := by
  rw [BigqueryClient.Load] at hok
  split at hok
  next e hps => simp at hok
  next sources hps =>
    split at hok
    next => simp at hok
    next src rest =>
      split at hok
      next e hws => simp at hok
      next c2 hws =>
        injection hok with hok
        injection hok with hc hup
        subst hc
        obtain ⟨hs1, hs2⟩ := loadWithSchema_ok rsf schema _ c2 hws
        refine ⟨?_, ?_, ?_⟩
        · rw [applyParameters_lookup, lastApplied_cons_ne (by decide),
            lastApplied_cons_ne (by decide), lastApplied_cons_ne (by decide),
            lastApplied_cons_ne (by decide), lastApplied_cons_ne (by decide),
            lastApplied_cons_ne (by decide), lastApplied_cons_ne (by decide),
            lastApplied_cons_ne (by decide), lastApplied_cons_ne (by decide)]
          show c2 "destinationTable".toList = some (refFields dest)
          rw [hs1 _ (by decide), loadWithSources_fst _ _ _ _ (by decide)]
          rfl
        · intro hsch
          rw [applyParameters_lookup, lastApplied_cons_ne (by decide),
            lastApplied_cons_ne (by decide), lastApplied_cons_ne (by decide),
            lastApplied_cons_ne (by decide), lastApplied_cons_ne (by decide),
            lastApplied_cons_ne (by decide), lastApplied_cons_ne (by decide),
            lastApplied_cons_ne (by decide), lastApplied_cons_ne (by decide)]
          show c2 "schema".toList = none
          rw [hs2 hsch, loadWithSources_fst _ _ _ _ (by decide)]
          rfl
        · intro k hk1 hk2 hk3
          rw [applyParameters_lookup]
          rcases h : lastApplied
            [("create_disposition".toList, cd.map .s),
             ("write_disposition".toList, wd.map .s),
             ("field_delimiter".toList, fd.map .s),
             ("skip_leading_rows".toList, slr.map .n),
             ("encoding".toList, enc.map .s),
             ("quote".toList, q.map .s),
             ("max_bad_records".toList, mbr.map .n),
             ("source_format".toList, sf.map .s),
             ("allow_quoted_newlines".toList, aqn.map .b)] k with _ | v
          · show c2 k = none
            rw [hs1 _ hk3, loadWithSources_fst _ _ _ _ hk2]
            show (if k = "destinationTable".toList
              then some (refFields dest) else none) = none
            rw [if_neg hk1]
          · rfl

/-- Claim C10: option application in the job-configuration builders.
(i) `_ApplyParameters` leaves at key `k` the last non-None keyword whose
lowerCamelCase name is `k`, and otherwise the existing entry; hence
(ii) it never removes or overwrites-to-None a key already present, and
(iii) keywords passed as None contribute no key.  (iv)–(vii): in
`CopyTable`, `Query`, `Load` and `Extract`, outside the structurally
inserted keys the built configuration holds exactly the non-None options
under their lowerCamelCase names, the structural keys are present, and
the `destination_table` / `priority` / `schema` / `defaultDataset`
arguments likewise contribute no key when absent. -/
theorem claim_C10 :
    (∀ (config : Config) (kwds : List (Str × Option PyVal)) (k : Str),
      _ApplyParameters config kwds k =
        match lastApplied kwds k with
        | some v => some v
        | none => config k) ∧
    (∀ (config : Config) (kwds : List (Str × Option PyVal)) (k : Str) (v : PyVal),
      config k = some v → ∃ w, _ApplyParameters config kwds k = some w) ∧
    (∀ (config : Config) (kwds : List (Str × Option PyVal)) (k : Str),
      (∀ kv ∈ kwds, _ToLowerCamel kv.1 = k → kv.2 = none) →
      _ApplyParameters config kwds k = config k) ∧
    (∀ (src dst : Reference) (cd wd : Option Str),
      BigqueryClient.CopyTable src dst cd wd "destinationTable".toList =
        some (refFields dst) ∧
      BigqueryClient.CopyTable src dst cd wd "sourceTable".toList =
        some (refFields src) ∧
      (∀ k, k ≠ "destinationTable".toList → k ≠ "sourceTable".toList →
        BigqueryClient.CopyTable src dst cd wd k =
          match lastApplied
            [("create_disposition".toList, cd.map .s),
             ("write_disposition".toList, wd.map .s)] k with
          | some v => some v
          | none => none)) ∧
    (∀ (cl : Client) (query : Str) (dt cd wd pr : Option Str) (c : Config),
      BigqueryClient.Query cl query dt cd wd pr = .ok c →
      c "query".toList = some (.s query) ∧
      (pr = none → c "priority".toList = none) ∧
      (∀ x, pr = some x → c "priority".toList = some (.s x)) ∧
      (dt = none → c "destinationTable".toList = none) ∧
      (cl.dataset_id = [] → c "defaultDataset".toList = none) ∧
      (∀ k, k ≠ "query".toList → k ≠ "defaultDataset".toList →
        k ≠ "destinationTable".toList → k ≠ "priority".toList →
        c k =
          match lastApplied
            [("create_disposition".toList, cd.map .s),
             ("write_disposition".toList, wd.map .s)] k with
          | some v => some v
          | none => none)) ∧
    (∀ (fs : Str → FsEntry) (rsf : Str → Except BigqueryError PyVal)
        (dest : Reference) (source : Str) (schema : Option Str)
        (cd wd fd : Option Str) (slr : Option Int) (enc q : Option Str)
        (mbr : Option Int) (aqn : Option Bool) (sf : Option Str)
        (c : Config) (up : Option Str),
      BigqueryClient.Load fs rsf dest source schema cd wd fd slr enc q mbr aqn
        sf = .ok (c, up) →
      c "destinationTable".toList = some (refFields dest) ∧
      (schema = none → c "schema".toList = none) ∧
      (∀ k, k ≠ "destinationTable".toList → k ≠ "sourceUris".toList →
        k ≠ "schema".toList →
        c k =
          match lastApplied
            [("create_disposition".toList, cd.map .s),
             ("write_disposition".toList, wd.map .s),
             ("field_delimiter".toList, fd.map .s),
             ("skip_leading_rows".toList, slr.map .n),
             ("encoding".toList, enc.map .s),
             ("quote".toList, q.map .s),
             ("max_bad_records".toList, mbr.map .n),
             ("source_format".toList, sf.map .s),
             ("allow_quoted_newlines".toList, aqn.map .b)] k with
          | some v => some v
          | none => none)) ∧
    (∀ (srcT : Reference) (uri : Str) (ph : Option Bool) (fd dfm : Option Str)
        (c : Config),
      BigqueryClient.Extract srcT uri ph fd dfm = .ok c →
      c "sourceTable".toList = some (refFields srcT) ∧
      (∀ k, k ≠ "sourceTable".toList →
        c k =
          match lastApplied
            [("destination_uri".toList, some (.s uri)),
             ("destination_format".toList, dfm.map .s),
             ("print_header".toList, ph.map .b),
             ("field_delimiter".toList, fd.map .s)] k with
          | some v => some v
          | none => none)) := by
  refine ⟨applyParameters_lookup, ?_, ?_, CopyTable_config_facts,
    Query_config_facts, Load_config_facts, Extract_config_facts⟩
  · intro config kwds k v hv
    rw [applyParameters_lookup]
    rcases lastApplied kwds k with _ | w
    · exact ⟨v, hv⟩
    · exact ⟨w, rfl⟩
  · intro config kwds k h
    rw [applyParameters_lookup, lastApplied_none_of_all_none h]

/-- Witness for claim C10 at concrete inputs: a `CopyTable` call with both
dispositions passed as None produces a configuration with no
`createDisposition` key. -/
theorem claim_C10_witness :
    BigqueryClient.CopyTable (.table "p".toList "d".toList "t".toList)
        (.table "p".toList "d".toList "u".toList) none none
        "createDisposition".toList = none := by
  have h := (claim_C10.2.2.2.1 (.table "p".toList "d".toList "t".toList)
      (.table "p".toList "d".toList "u".toList) none none).2.2
    "createDisposition".toList (by decide) (by decide)
  rw [h]
  rfl
